import Mathlib

/-!
# Verification of the batchhttp repository against its specification

This file is a shallow embedding, in Lean 4, of the core of the `batchhttp`
Python package (files `batchhttp/multipart.py`, `batchhttp/client.py`,
`batchhttp/batchproxy.py`), together with theorems settling the frozen
claims about the natural-language specification.

Modelling conventions:
* Python byte strings are `List Char` (all inputs of interest are byte
  strings; where a claim needs it, well-formedness includes a bound
  `c.toNat < 256`).
* Python exceptions are modelled with `Except`: each function that can
  raise returns `Except PyErr _` and every `raise` site becomes an
  `.error` constructor.
* Stateful code is modelled by explicit state passing; mutation of a
  Python `dict` is modelled by an insertion-ordered association list with
  update-in-place semantics (`dictSet`).
* External collaborators (the `email` package Generator/Parser pair, the
  `httplib2` agent, Twisted's reactor) are modelled at their interface:
  a MIME document is kept structured as a list of parts (the stdlib
  serialize/parse pair between the two repository-owned endpoints is the
  identity on that structure), the agent is a record of hooks, and the
  proxy's completion events are an explicit schedule list.
-/

namespace BatchHTTP

/-- Byte strings of the Python 2 code are lists of characters. -/
abbrev Str := List Char

/-- Shorthand turning a Lean string literal into the `Str` representation. -/
def lit (x : String) : Str := x.data

/-- The characters Python `str.strip()` removes (C locale whitespace). -/
def isPySpace (c : Char) : Bool :=
  c = ' ' || c = '\t' || c = '\n' || c = '\r' || c = '\x0b' || c = '\x0c'

/-- Python `str.lstrip()`. -/
def lstrip (xs : Str) : Str := xs.dropWhile isPySpace

/-- Python `str.rstrip()`. -/
def rstrip (xs : Str) : Str := (xs.reverse.dropWhile isPySpace).reverse

/-- Python `str.strip()`. -/
def strip (xs : Str) : Str := rstrip (lstrip xs)

/-- Python `str.lower()` (ASCII lowering; all modelled data is ASCII). -/
def lower (xs : Str) : Str := xs.map Char.toLower

/-- Helper for Python `str.split()` with no argument: accumulates the
current word (reversed) and splits on runs of whitespace. -/
def splitWSAux : Str → Str → List Str
  | [], acc => if acc = [] then [] else [acc.reverse]
  | c :: rest, acc =>
    if isPySpace c then
      if acc = [] then splitWSAux rest []
      else acc.reverse :: splitWSAux rest []
    else splitWSAux rest (c :: acc)

/-- Python `str.split()` with no argument: split on whitespace runs,
dropping empty fields. -/
def splitWS (xs : Str) : List Str := splitWSAux xs []

/-- Python `str.split("\r\n")`: greedy left-to-right split on the
two-character separator. -/
def splitCRLF : Str → List Str
  | [] => [[]]
  | '\r' :: '\n' :: rest => [] :: splitCRLF rest
  | c :: rest =>
    match splitCRLF rest with
    | [] => [[c]]
    | l :: ls => (c :: l) :: ls

/-- Python `"\r\n".join(lines)`. -/
def joinCRLF : List Str → Str
  | [] => []
  | [l] => l
  | l :: ls => l ++ '\r' :: '\n' :: joinCRLF ls

/-- Python `s.split(sep, 1)` for a one-character separator, demanding that
the separator occurs (the callers unpack into two variables, which raises
`ValueError` when the separator is missing — represented by `none`). -/
def splitAtChar1 (sep : Char) : Str → Option (Str × Str)
  | [] => none
  | c :: rest =>
    if c = sep then some ([], rest)
    else (splitAtChar1 sep rest).map (fun p => (c :: p.1, p.2))

/-- Python `s.split(sep)` for a one-character separator (all fields). -/
def splitOnChar (sep : Char) : Str → List Str
  | [] => [[]]
  | c :: rest =>
    if c = sep then [] :: splitOnChar sep rest
    else
      match splitOnChar sep rest with
      | [] => [[c]]
      | l :: ls => (c :: l) :: ls

/-- Digits of a decimal literal to a number, `none` if empty or non-digit. -/
def digitsToNat (ds : Str) : Option Nat :=
  if ds ≠ [] && ds.all Char.isDigit then
    some (ds.foldl (fun n c => n * 10 + (c.toNat - 48)) 0)
  else none

/-- Python `int(s)`: optional surrounding whitespace, optional sign,
decimal digits; `none` models the `ValueError`. -/
def pyInt (xs : Str) : Option Int :=
  match strip xs with
  | '-' :: ds => (digitsToNat ds).map (fun n => -(n : Int))
  | '+' :: ds => (digitsToNat ds).map (fun n => (n : Int))
  | ds => (digitsToNat ds).map (fun n => (n : Int))

/-- Python `str(n)` for a natural number. -/
def pyStrNat (n : Nat) : Str := (toString n).data

/-- Python `c in s` for a character. -/
def hasChar (c : Char) (xs : Str) : Bool := xs.contains c

/-- Python `s.find(c)` (first index, `none` for not found). -/
def findChar (c : Char) (xs : Str) : Option Nat := xs.indexOf? c

/-- Python `s.startswith(p)`. -/
def startsWith (p xs : Str) : Bool := List.take p.length xs = p

/-- Insertion-ordered association-list model of a Python `dict`
assignment `d[k] = v`: replace in place or append. -/
def dictSet (d : List (Str × Str)) (k v : Str) : List (Str × Str) :=
  if (d.map Prod.fst).contains k then
    d.map (fun p => if p.1 = k then (k, v) else p)
  else d ++ [(k, v)]

/-- Lookup in the association-list dict (`d.get(k)` / `d[k]`). -/
def dictGet (d : List (Str × Str)) (k : Str) : Option Str :=
  (d.find? (fun p => p.1 = k)).map Prod.snd

/-! ## URL handling: the Python 2.7 `urlparse` module

`batchhttp.multipart.parse_uri` and `BatchRequest.process` use
`urlparse.urlparse`, `urlparse.urlunparse` and `urlparse.urljoin`; those
stdlib functions are modelled here following the Python 2.7 source. -/

/-- Characters allowed in a URL scheme (`urlparse.scheme_chars`). -/
def isSchemeChar (c : Char) : Bool :=
  c.isAlpha || c.isDigit || c = '+' || c = '-' || c = '.'

/-- Result of `urlsplit`: five components. -/
structure SplitResult where
  scheme : Str
  netloc : Str
  path : Str
  query : Str
  fragment : Str
deriving DecidableEq, Repr

/-- `urlparse._splitnetloc` on the text after the leading `//`:
the netloc extends to the first `/`, `?` or `#`. -/
def splitnetloc (url : Str) : Str × Str :=
  (url.takeWhile (fun c => !(c = '/' || c = '?' || c = '#')),
   url.dropWhile (fun c => !(c = '/' || c = '?' || c = '#')))

/-- Python 2.7 `urlparse.urlsplit(url, scheme0)` (allow_fragments=True):
scheme detection with the `http` fast path and the host:port guard, then
netloc, fragment and query splitting. -/
def urlsplit (url : Str) (scheme0 : Str) : SplitResult :=
  let sr :=
    match findChar ':' url with
    | some i =>
      if 0 < i then
        let pre := url.take i
        if pre.all isSchemeChar then
          let r := url.drop (i + 1)
          if pre = lit "http" then (lower pre, r)
          else if r = [] || r.any (fun c => !c.isDigit) then (lower pre, r)
          else (scheme0, url)
        else (scheme0, url)
      else (scheme0, url)
    | none => (scheme0, url)
  let nr :=
    if startsWith (lit "//") sr.2 then splitnetloc (sr.2.drop 2)
    else ([], sr.2)
  let rf :=
    if hasChar '#' nr.2 then (splitAtChar1 '#' nr.2).getD (nr.2, [])
    else (nr.2, [])
  let pq :=
    if hasChar '?' rf.1 then (splitAtChar1 '?' rf.1).getD (rf.1, [])
    else (rf.1, [])
  ⟨sr.1, nr.1, pq.1, pq.2, rf.2⟩

/-- Python 2.7 `urlparse.urlunsplit`. -/
def urlunsplit (d : SplitResult) : Str :=
  let url := d.path
  let url :=
    if d.netloc ≠ [] || (url ≠ [] && startsWith (lit "//") url) then
      lit "//" ++ d.netloc ++
        (if url ≠ [] && !startsWith (lit "/") url then '/' :: url else url)
    else url
  let url := if d.scheme ≠ [] then d.scheme ++ ':' :: url else url
  let url := if d.query ≠ [] then url ++ '?' :: d.query else url
  if d.fragment ≠ [] then url ++ '#' :: d.fragment else url

/-- `urlparse.uses_relative` (Python 2.7). -/
def usesRelative : List Str :=
  [lit "ftp", lit "http", lit "gopher", lit "nntp", lit "imap", lit "wais",
   lit "file", lit "https", lit "shttp", lit "mms", lit "prospero",
   lit "rtsp", lit "rtspu", lit "", lit "sftp", lit "svn", lit "svn+ssh"]

/-- `urlparse.uses_netloc` (Python 2.7). -/
def usesNetloc : List Str :=
  [lit "ftp", lit "http", lit "gopher", lit "nntp", lit "telnet", lit "imap",
   lit "wais", lit "file", lit "mms", lit "https", lit "shttp", lit "snews",
   lit "prospero", lit "rtsp", lit "rtspu", lit "rsync", lit "", lit "svn",
   lit "svn+ssh", lit "sftp", lit "nfs", lit "git", lit "git+ssh"]

/-- `urlparse.uses_params` (Python 2.7). -/
def usesParams : List Str :=
  [lit "ftp", lit "hdl", lit "prospero", lit "http", lit "imap", lit "https",
   lit "shttp", lit "rtsp", lit "rtspu", lit "sip", lit "sips", lit "mms",
   lit "", lit "sftp", lit "tel"]

/-- Python `s.rfind(c)` as an option. -/
def rfindChar (c : Char) (xs : Str) : Option Nat :=
  (findChar c xs.reverse).map (fun i => xs.length - 1 - i)

/-- Python `s.find(c, start)` as an option. -/
def findCharFrom (c : Char) (xs : Str) (start : Nat) : Option Nat :=
  (findChar c (xs.drop start)).map (· + start)

/-- `urlparse._splitparams`. -/
def splitparams (url : Str) : Str × Str :=
  match rfindChar '/' url with
  | some j =>
    match findCharFrom ';' url j with
    | some i => (url.take i, url.drop (i + 1))
    | none => (url, [])
  | none =>
    match findChar ';' url with
    | some i => (url.take i, url.drop (i + 1))
    | none => (url, [])

/-- Result of `urlparse.urlparse`: six components. -/
structure ParseResult where
  scheme : Str
  netloc : Str
  path : Str
  params : Str
  query : Str
  fragment : Str
deriving DecidableEq, Repr

/-- Python 2.7 `urlparse.urlparse(url, scheme0)`: `urlsplit` plus the
params split (scheme membership is tested before the `;` search, as the
short-circuit `and` does). -/
def pyUrlparse (url : Str) (scheme0 : Str) : ParseResult :=
  let s := urlsplit url scheme0
  if usesParams.contains s.scheme then
    if hasChar ';' s.path then
      let pp := splitparams s.path
      ⟨s.scheme, s.netloc, pp.1, pp.2, s.query, s.fragment⟩
    else ⟨s.scheme, s.netloc, s.path, [], s.query, s.fragment⟩
  else ⟨s.scheme, s.netloc, s.path, [], s.query, s.fragment⟩

/-- Python 2.7 `urlparse.urlunparse`. -/
def urlunparse (d : ParseResult) : Str :=
  let url := if d.params ≠ [] then d.path ++ ';' :: d.params else d.path
  urlunsplit ⟨d.scheme, d.netloc, url, d.query, d.fragment⟩

/-- One scan of the `..`-collapsing loop inside `urljoin`: find the first
index `i` (with an element after it, since the scan stops before the last
index) where `segments[i] = ".."` and `segments[i-1]` is neither empty nor
`".."`, and delete both; `none` when no such pair exists. -/
def delDotDotAux : List Str → Option (List Str)
  | a :: b :: c :: rest =>
    if b = lit ".." && a ≠ lit "" && a ≠ lit ".." then some (c :: rest)
    else (delDotDotAux (b :: c :: rest)).map (fun r => a :: r)
  | _ => none

/-- The `while 1` loop around the `..` scan; each deletion shortens the
list by two, so `fuel` bounded by the length reaches the fixed point. -/
def delDotDotLoop : Nat → List Str → List Str
  | 0, segs => segs
  | fuel + 1, segs =>
    match delDotDotAux segs with
    | some segs2 => delDotDotLoop fuel segs2
    | none => segs

/-- Replace the last element of a list. -/
def setLast (segs : List Str) (v : Str) : List Str :=
  match segs with
  | [] => []
  | [_] => [v]
  | a :: rest => a :: setLast rest v

/-- The body of Python 2.7 `urlparse.urljoin` once base and url are
parsed (`b` and `t`). -/
def urljoinResolved (b t : ParseResult) (url : Str) : Str :=
  if t.scheme ≠ b.scheme || !usesRelative.contains t.scheme then url
  else
    let resolved :=
      if usesNetloc.contains t.scheme then
        if t.netloc ≠ [] then none
        else some { t with netloc := b.netloc }
      else some t
    match resolved with
    | none => urlunparse t
    | some t =>
      if startsWith (lit "/") t.path then urlunparse t
      else if t.path = [] && t.params = [] then
        urlunparse { t with path := b.path, params := b.params,
                            query := if t.query = [] then b.query else t.query }
      else
        let segments := (splitOnChar '/' b.path).dropLast ++ splitOnChar '/' t.path
        let segments :=
          if segments.getLast? = some (lit ".") then setLast segments (lit "")
          else segments
        let segments := segments.filter (fun s => s ≠ lit ".")
        let segments := delDotDotLoop segments.length segments
        let segments :=
          if segments = [lit "..", lit ""] then [lit ""] else segments
        urlunparse { t with path := List.intercalate (lit "/") segments }

/-- Python 2.7 `urlparse.urljoin(base, url)`. -/
def urljoin (base url : Str) : Str :=
  if base = [] then url
  else if url = [] then base
  else
    urljoinResolved (pyUrlparse base [])
      (pyUrlparse url (pyUrlparse base []).scheme) url

/-- `batchhttp.multipart.parse_uri`: scheme, host, and the rest of the URI
(`urlunparse` over the tail components with scheme and netloc blanked). -/
def parse_uri (uri : Str) : Str × Str × Str :=
  let p := pyUrlparse uri []
  (p.scheme, p.netloc,
   urlunparse ⟨[], [], p.path, p.params, p.query, p.fragment⟩)

/-! ## Quoted-printable and base64 transfer codecs

`quopri.encode(..., quotetabs=False)` / `quopri.decodestring` back onto
`binascii.b2a_qp(data, quotetabs=0, istext=1)` / `a2b_qp`. The model
below follows them for byte input with CRLF line ends: `=` is always
quoted, bytes outside 33..126 are quoted except that `\r\n` pairs pass
through as line ends, space and tab are quoted only as trailing
whitespace at the end of the data, and a lone `.` opening a line before
a line break is quoted. Soft line breaks (`=\r\n`) are inserted at the
76-column limit; the exact wrap column is immaterial to every stated
property because decoding removes soft breaks. -/

/-- Upper-case hexadecimal digit for `n < 16`. -/
def hexDigit (n : Nat) : Char := (lit "0123456789ABCDEF").getD n '0'

/-- Value of a hexadecimal digit (`a2b_qp` accepts both cases). -/
def hexVal (c : Char) : Option Nat :=
  if '0' ≤ c ∧ c ≤ '9' then some (c.toNat - 48)
  else if 'A' ≤ c ∧ c ≤ 'F' then some (c.toNat - 55)
  else if 'a' ≤ c ∧ c ≤ 'f' then some (c.toNat - 87)
  else none

/-- Whether `b2a_qp` (quotetabs=0, istext=1) quotes the byte `c` of a
CRLF-delimited line: `=` always; space and tab only as trailing
whitespace at the very end of the data (`last` marks the final line);
a `.` opening a line directly before a line break; any byte outside
33..126 (CR and LF never pair inside a CRLF-split line, so both are
quoted wherever they occur within one). -/
def qpNeedsQuote (c : Char) (rest : Str) (linelen : Nat) (last : Bool) : Bool :=
  if c = '=' then true
  else if c = ' ' || c = '\t' then rest = [] && last
  else if c = '.' && linelen = 0 then
    match rest with
    | [] => true
    | d :: _ => d = '\r' || d = '\n'
  else decide (c.toNat < 33 ∨ 126 < c.toNat)

/-- Encode one CRLF-free line, carrying the output column for the
76-column soft line breaks. -/
def qpEncLine : Str → Nat → Bool → Str
  | [], _, _ => []
  | c :: rest, linelen, last =>
    if qpNeedsQuote c rest linelen last then
      let enc := ['=', hexDigit (c.toNat / 16 % 16), hexDigit (c.toNat % 16)]
      if 75 < linelen + 3 then '=' :: '\r' :: '\n' :: (enc ++ qpEncLine rest 3 last)
      else enc ++ qpEncLine rest (linelen + 3) last
    else
      if 75 < linelen + 1 then '=' :: '\r' :: '\n' :: c :: qpEncLine rest 1 last
      else c :: qpEncLine rest (linelen + 1) last

/-- Encode the CRLF-split lines, re-emitting the CRLF line ends as
`b2a_qp` does in text mode on CRLF input. -/
def qpEncLines : List Str → Str
  | [] => []
  | [l] => qpEncLine l 0 true
  | l :: ls => qpEncLine l 0 false ++ '\r' :: '\n' :: qpEncLines ls

/-- `quopri.encode(StringIO(s), out, quotetabs=False)` as used by the
`HTTPRequestMessage` / `HTTPResponseMessage` constructors. -/
def qpEncode (s : Str) : Str := qpEncLines (splitCRLF s)

/-- `quopri.decodestring`: decode `=XX`, drop soft line breaks, pass
everything else through. A malformed escape passes its bytes through
literally (CPython resynchronizes one byte earlier; no modelled path
produces malformed escapes, since the encoder always quotes `=`). -/
def qpDecode : Str → Str
  | [] => []
  | c :: rest =>
    if c = '=' then
      match rest with
      | [] => ['=']
      | a :: rest1 =>
        if a = '\n' then qpDecode rest1
        else match rest1 with
          | [] => ['=', a]
          | b :: rest2 =>
            if a = '\r' ∧ b = '\n' then qpDecode rest2
            else match hexVal a, hexVal b with
              | some x, some y => Char.ofNat (16 * x + y) :: qpDecode rest2
              | _, _ => '=' :: a :: b :: qpDecode rest2
    else c :: qpDecode rest

/-- Six-bit value of a base64 alphabet character. -/
def b64Val (c : Char) : Option Nat :=
  if 'A' ≤ c ∧ c ≤ 'Z' then some (c.toNat - 65)
  else if 'a' ≤ c ∧ c ≤ 'z' then some (c.toNat - 71)
  else if '0' ≤ c ∧ c ≤ '9' then some (c.toNat + 4)
  else if c = '+' then some 62
  else if c = '/' then some 63
  else none

/-- Reassemble decoded base64 sextets into bytes. -/
def b64DecodeQuads : List Nat → Str
  | a :: b :: c :: d :: rest =>
    let n := ((a * 64 + b) * 64 + c) * 64 + d
    Char.ofNat (n / 65536) :: Char.ofNat (n / 256 % 256) :: Char.ofNat (n % 256) ::
      b64DecodeQuads rest
  | [a, b, c] =>
    let n := ((a * 64 + b) * 64 + c) * 64
    [Char.ofNat (n / 65536), Char.ofNat (n / 256 % 256)]
  | [a, b] =>
    let n := (a * 64 + b) * 64 * 64
    [Char.ofNat (n / 65536)]
  | _ => []

/-- `base64.decodestring` on well-formed input (data up to the first pad,
non-alphabet characters skipped). The repository's own encoder never
emits base64; this branch exists only because the parser accepts it. -/
def base64decodestring (s : Str) : Str :=
  b64DecodeQuads ((s.takeWhile (fun c => c ≠ '=')).filterMap b64Val)

/-- `batchhttp.multipart.bdecode`. -/
def bdecode (s : Str) : Str :=
  if s = [] then s
  else
    let value := base64decodestring s
    if !(s.getLast? = some '\n') && value.getLast? = some '\n' then value.dropLast
    else value

/-! ## MIME parts and the inner HTTP message parsers (`multipart.py`)

A MIME document is kept structured: the `email` package Generator/Parser
pair between the repository's encoder and decoder is the identity on
this structure (external stdlib), so a part records exactly the header
fields the repository reads and writes: content type, the
`Multipart-Request-ID` header, the `Content-Transfer-Encoding` header,
and the (transfer-encoded) payload text. -/

/-- One MIME part. -/
structure MIMEPart where
  maintype : Str
  subtype : Str
  request_id : Option Str
  cte : Str
  payload : Str
deriving DecidableEq, Repr

/-- A `multipart/parallel` document: its ordered leaf parts. -/
structure MultipartMsg where
  parts : List MIMEPart
deriving DecidableEq, Repr

/-- `batchhttp.multipart.HTTPRequestMessage`: an
`application/http-request` part with `Multipart-Request-ID` and
quoted-printable payload. -/
def HTTPRequestMessage (http_request : Str) (request_id : Str) : MIMEPart :=
  ⟨lit "application", lit "http-request", some request_id,
   lit "quoted-printable", qpEncode http_request⟩

/-- `batchhttp.multipart.HTTPResponseMessage`. -/
def HTTPResponseMessage (http_response : Str) (request_id : Str) : MIMEPart :=
  ⟨lit "application", lit "http-response", some request_id,
   lit "quoted-printable", qpEncode http_response⟩

/-- Python `str(x)` on an optional string (`str(None) = "None"`). -/
def pyStrOpt : Option Str → Str
  | none => lit "None"
  | some s => s

/-- Python exceptions raised by `multipart.py`. -/
inductive PyErr where
  | badRequest
  | badResponse
  | parserError (msg : String)
  | indexError
  | valueError
deriving DecidableEq, Repr

/-- Parsed `batchhttp.multipart.HTTPRequest`. -/
structure HTTPRequest where
  command : Str
  request_uri : Str
  version : Str
  scheme : Str
  host : Str
  path : Str
  headers : List (Str × Str)
  length : Option Int
  content_type : Option Str
  request_id : Option Str
  data : Str
deriving DecidableEq, Repr

/-- The mutable fields `HTTPRequest.process_header` updates. -/
structure HReqState where
  length : Option Int
  content_type : Option Str
  host : Str
  headers : List (Str × Str)
deriving DecidableEq, Repr

/-- `HTTPRequest.process_header`: split at the first colon (`ValueError`
when missing), lower the name, strip the value, record
content-length/content-type/host, append to the ordered header list. -/
def process_header (st : HReqState) (line : Str) : Except PyErr HReqState :=
  match splitAtChar1 ':' line with
  | none => .error .valueError
  | some (h, d) =>
    let header := lower h
    let data := strip d
    if header = lit "content-length" then
      match pyInt data with
      | none => .error .valueError
      | some n =>
        .ok { st with length := some n, headers := st.headers ++ [(header, data)] }
    else if header = lit "content-type" then
      .ok { st with content_type := some data, headers := st.headers ++ [(header, data)] }
    else if header = lit "host" && st.host = [] then
      .ok { st with host := data, headers := st.headers ++ [(header, data)] }
    else .ok { st with headers := st.headers ++ [(header, data)] }

/-- The header `while` loop of `HTTPRequest.__init__`: `line` is the
line already popped, `header` the pending (possibly folded) header text.
Returns the final state, the still-pending header, and the unconsumed
lines. The loop `break`s when the line list runs out. -/
def reqHeaderLoop : List Str → Str → Str → HReqState →
    Except PyErr (HReqState × Str × List Str)
  | lines, line, header, st =>
    if strip line ≠ [] then
      let isCont : Bool :=
        match line with
        | c :: _ => c = ' ' || c = '\t'
        | [] => false
      match (if isCont then Except.ok st
             else if header ≠ [] then process_header st header
             else Except.ok st) with
      | .error e => .error e
      | .ok st1 =>
        let header1 := if isCont then header ++ '\n' :: line else line
        match lines with
        | [] => .ok (st1, header1, [])
        | l :: ls => reqHeaderLoop ls l header1 st1
    else .ok (st, header, lines)

/-- `batchhttp.multipart.HTTPRequest.__init__`: split the text on CRLF,
parse the request line into exactly three tokens (`BadRequestException`
otherwise), tolerate one extra empty line after a POST request line, run
the header loop, and keep the remaining lines rejoined as the body. -/
def parseHTTPRequest (request : Str) (headers0 : List (Str × Str))
    (request_id : Option Str) : Except PyErr HTTPRequest :=
  match splitCRLF request with
  | [] => .error .indexError
  | request_line :: lines1 =>
    match splitWS request_line with
    | command :: uri :: version :: _ =>
      let u := parse_uri uri
      match lines1 with
      | [] => .error .indexError
      | l0 :: lines2 =>
        let popped :=
          if l0 = [] && command = lit "POST" then
            match lines2 with
            | [] => none
            | l1 :: lines3 => some (l1, lines3)
          else some (l0, lines2)
        match popped with
        | none => .error .indexError
        | some (line0, rest) =>
          match reqHeaderLoop rest line0 [] ⟨none, none, u.2.1, headers0⟩ with
          | .error e => .error e
          | .ok (st, header, remaining) =>
            match (if header ≠ [] then process_header st header else Except.ok st) with
            | .error e => .error e
            | .ok st2 =>
              .ok { command := command, request_uri := uri, version := version,
                    scheme := u.1, host := st2.host, path := u.2.2,
                    headers := st2.headers, length := st2.length,
                    content_type := st2.content_type, request_id := request_id,
                    data := joinCRLF remaining }
    | _ => .error .badRequest

/-- `HTTPRequest.__str__`: note the request line is rebuilt from
`self.path`, not from the original request URI, and no blank line is
reinserted between headers and body. -/
def renderHTTPRequest (r : HTTPRequest) : Str :=
  let command := r.command ++ [' '] ++ r.path ++ [' '] ++ r.version
  let headers := joinCRLF (r.headers.map (fun p => p.1 ++ lit ": " ++ p.2))
  joinCRLF [command, headers, r.data]

/-- Parsed `batchhttp.multipart.HTTPResponse`. -/
structure HTTPResponse where
  version : Str
  status : Str
  message : Str
  headers : List (Str × Str)
  length : Option Int
  content_type : Option Str
  data : Str
deriving DecidableEq, Repr

/-- The mutable fields of the `HTTPResponse` header loop. -/
structure HRespState where
  length : Option Int
  content_type : Option Str
  headers : List (Str × Str)
deriving DecidableEq, Repr

/-- The header `while` loop of `HTTPResponse.__init__`. Unlike the
request loop, the trailing `lines.pop(0)` is not guarded by a length
check, so running out of lines raises `IndexError`. -/
def respHeaderLoop : List Str → Str → HRespState →
    Except PyErr (HRespState × List Str)
  | lines, line, st =>
    if strip line ≠ [] then
      match splitAtChar1 ':' line with
      | none => .error .valueError
      | some (h, v) =>
        let header := lower h
        let value := lstrip v
        let st1 : HRespState := { st with headers := st.headers ++ [(header, value)] }
        let upd : Except PyErr HRespState :=
          if header = lit "content-length" then
            match pyInt value with
            | none => .error .valueError
            | some n => .ok { st1 with length := some n }
          else if header = lit "content-type" then
            .ok { st1 with content_type := some value }
          else .ok st1
        match upd with
        | .error e => .error e
        | .ok st2 =>
          match lines with
          | [] => .error .indexError
          | l :: ls => respHeaderLoop ls l st2
    else .ok (st, lines)

/-- `batchhttp.multipart.HTTPResponse.__init__`: status line of at least
two tokens (`BadResponseException` otherwise), optional reason phrase,
then the unguarded header loop. -/
def parseHTTPResponse (response : Str) : Except PyErr HTTPResponse :=
  match splitCRLF response with
  | [] => .error .indexError
  | response_line :: lines1 =>
    match splitWS response_line with
    | version :: status :: restToks =>
      let message := restToks.headD []
      match lines1 with
      | [] => .error .indexError
      | l0 :: lines2 =>
        match respHeaderLoop lines2 l0 ⟨none, none, []⟩ with
        | .error e => .error e
        | .ok (st, remaining) =>
          .ok ⟨version, status, message, st.headers, st.length,
               st.content_type, joinCRLF remaining⟩
    | _ => .error .badResponse

/-- `HTTPResponse.__str__`. -/
def renderHTTPResponse (r : HTTPResponse) : Str :=
  let status := r.version ++ [' '] ++ r.status ++ [' '] ++ r.message
  let headers := joinCRLF (r.headers.map (fun p => p.1 ++ lit ": " ++ p.2))
  joinCRLF [status, headers, r.data]

/-- `HTTPParser._parse_subrequest`: transfer-decode a leaf payload
according to its `Content-Transfer-Encoding`. -/
def parse_subrequest (p : MIMEPart) : Str :=
  let ct := lower p.cte
  if ct = lit "quoted-printable" then qpDecode p.payload
  else if ct = lit "base64" then bdecode p.payload
  else p.payload

/-- What `HTTPParser` accumulates. -/
structure HTTPParserOut where
  requests : List HTTPRequest
  responses : List HTTPResponse
deriving DecidableEq, Repr

/-- The `walk` loop of `HTTPParser._parse`: multipart containers are
descended into (the structured model keeps leaves flat), `application/*`
leaves are transfer-decoded and parsed as inner requests or responses,
any other `application` subtype raises `ParserError`, and other leaves
are ignored. -/
def walkParts : List MIMEPart → HTTPParserOut → Except PyErr HTTPParserOut
  | [], acc => .ok acc
  | p :: ps, acc =>
    if p.maintype = lit "multipart" then walkParts ps acc
    else if p.maintype = lit "application" then
      let payload := parse_subrequest p
      if p.subtype = lit "http-request" then
        match parseHTTPRequest payload [] p.request_id with
        | .error e => .error e
        | .ok r => walkParts ps { acc with requests := acc.requests ++ [r] }
      else if p.subtype = lit "http-response" then
        match parseHTTPResponse payload with
        | .error e => .error e
        | .ok r => walkParts ps { acc with responses := acc.responses ++ [r] }
      else .error (.parserError "Unrecognized message type")
    else walkParts ps acc

/-- `batchhttp.multipart.HTTPParser` applied to a multipart document. -/
def runHTTPParser (msg : MultipartMsg) : Except PyErr HTTPParserOut :=
  walkParts msg.parts ⟨[], []⟩

/-! ## The batch client (`client.py`)

Weak callbacks are modelled by their observable: the `alive` flag a
`WeaklyBoundMethod` / `WeakCallback` reports at the instant `complete`
runs. Invoking a callback is modelled as recording an `Invocation`.
The `httplib2.Http` agent is external; it appears as a record of hooks
(`Agent`) plus, for the batch POST itself, a function from the request
to the response. -/

/-- Python exceptions and `BatchError`s raised by `client.py` (and the
proxy); `batchError` keeps the exact message of the `raise` site. -/
inductive ClientError where
  | batchError (msg : String)
  | nonBatchResponse (status : Int) (reason : Str)
  | referenceError
  | indexError
  | typeError
  | valueError
  | unicodeError
  | keyError
  | unsupportedMethod
deriving DecidableEq, Repr

/-- A parsed subresponse as `httplib2.Response` carries it: numeric
status and lower-cased headers. -/
structure SubResponse where
  status : Int
  headers : List (Str × Str)
deriving DecidableEq, Repr

/-- The external `httplib2.Http` agent state the client consults:
whether a cache or authorizations are present, the dry-run preflight
hook (`_update_headers_from_cache` charade: the headers and body the
agent would have sent), and the response post-processing hook
(`_update_response_from_cache` handoff). -/
structure Agent where
  hasCacheOrAuth : Bool
  prepare : Str → List (Str × Str) → Option Str → List (Str × Str) × Option Str
  postprocess : SubResponse → Str → SubResponse × Str

/-- One subrequest of a batch: the `reqinfo` mapping
(`uri`, optional `headers`, optional `body`) plus the liveness of the
weakly held callback. -/
structure ClientRequest where
  uri : Str
  reqHeaders : List (Str × Str)
  reqBody : Option Str
  alive : Bool
deriving DecidableEq, Repr

/-- `Request._update_headers_from_cache`: with no cache and no
authorizations the `reqinfo` headers and body pass through unchanged;
otherwise the captured dry-run output is used. -/
def update_headers_from_cache (agent : Agent) (r : ClientRequest) :
    List (Str × Str) × Option Str :=
  if agent.hasCacheOrAuth then agent.prepare r.uri r.reqHeaders r.reqBody
  else (r.reqHeaders, r.reqBody)

/-- `Request._update_response_from_cache`: identity without cache/auth;
otherwise the agent hook runs and a `304` status is rewritten to `200`. -/
def update_response_from_cache (agent : Agent) (resp : SubResponse) (realbody : Str) :
    SubResponse × Str :=
  if agent.hasCacheOrAuth then
    let pr := agent.postprocess resp realbody
    let r2 := if pr.1.status = 304 then { pr.1 with status := 200 } else pr.1
    (r2, pr.2)
  else (resp, realbody)

/-- The `requesttext` built by `Request.as_message`: always a `GET`
request line with the absolute URI, `host` forced to the URL authority,
`accept-encoding` forced to `identity`, headers in dict order, blank
line, then the body (empty for `None`). -/
def requestText (agent : Agent) (r : ClientRequest) : Str :=
  let hb := update_headers_from_cache agent r
  let host := (pyUrlparse r.uri []).netloc
  let headers := dictSet hb.1 (lit "host") host
  let headers := dictSet headers (lit "accept-encoding") (lit "identity")
  lit "GET " ++ r.uri ++ lit " HTTP/1.1\r\n"
  ++ (headers.map (fun p => p.1 ++ lit ": " ++ p.2 ++ lit "\r\n")).flatten
  ++ lit "\r\n" ++ hb.2.getD []

/-- `Request.as_message`: `ReferenceError` for a dead callback, the
`.encode('ascii')` guard, then the quoted-printable part tagged
`Multipart-Request-ID: str(id)`. -/
def asMessage (agent : Agent) (r : ClientRequest) (id : Nat) :
    Except ClientError MIMEPart :=
  if !r.alive then .error .referenceError
  else
    let t := requestText agent r
    if t.all (fun c => c.toNat < 128) then .ok (HTTPRequestMessage t (pyStrNat id))
    else .error .unicodeError

/-- `client.BatchRequest`: the ordered subrequest list. -/
structure CBatchRequest where
  requests : List ClientRequest
deriving DecidableEq, Repr

/-- `BatchRequest.__len__`: only subrequests with live callbacks count. -/
def batchLen (b : CBatchRequest) : Nat := (b.requests.filter (·.alive)).length

/-- The part-building loop of `BatchRequest.construct`: `request_id`
advances for every subrequest, whether or not its part was attached;
only `ReferenceError` is caught. -/
def constructGo (agent : Agent) : List ClientRequest → Nat →
    Except ClientError (List MIMEPart)
  | [], _ => .ok []
  | r :: rs, id =>
    match asMessage agent r id with
    | .ok p => (constructGo agent rs (id + 1)).map (fun ps => p :: ps)
    | .error .referenceError => constructGo agent rs (id + 1)
    | .error e => .error e

/-- The outer `Content-Type` produced when the multipart message is
baked with boundary `boundary`. -/
def batchContentType (boundary : Str) : Str :=
  lit "multipart/parallel; boundary=" ++ ('"' :: boundary) ++ ['"']

/-- Result of `BatchRequest.construct`: either the `(headers, body)`
pair or the `(None, None)` of an empty batch, plus whether the
empty-batch warning was logged. -/
structure ConstructOut where
  result : Option (List (Str × Str) × MultipartMsg)
  warned : Bool
deriving DecidableEq, Repr

/-- `BatchRequest.construct`: warn and return `(None, None)` when no
live subrequest remains; otherwise build the parts, take the baked
message headers (`MIME-Version`, `Content-Type` with the boundary), and
prefer gzip for the batch response. -/
def construct (agent : Agent) (boundary : Str) (b : CBatchRequest) :
    Except ClientError ConstructOut :=
  if batchLen b = 0 then .ok ⟨none, true⟩
  else
    match constructGo agent b.requests 1 with
    | .error e => .error e
    | .ok parts =>
      let headers := dictSet (dictSet (dictSet [] (lit "MIME-Version") (lit "1.0"))
        (lit "Content-Type") (batchContentType boundary))
        (lit "accept-encoding") (lit "gzip;q=1.0, identity; q=0.5, *;q=0")
      .ok ⟨some (headers, ⟨parts⟩), false⟩

/-- Python list subscription `xs[i]`: negative indices count from the
end, anything out of range raises `IndexError`. Returns the resolved
non-negative position together with the element. -/
def pyIndex (xs : List α) (i : Int) : Except ClientError (Nat × α) :=
  let j : Int := if 0 ≤ i then i else (xs.length : Int) + i
  if 0 ≤ j ∧ j < (xs.length : Int) then
    match xs.get? j.toNat with
    | some a => .ok (j.toNat, a)
    | none => .error .indexError
  else .error .indexError

/-- `StringIO.readline`: up to and including the first newline. -/
def readline (s : Str) : Str × Str :=
  match splitAtChar1 '\n' s with
  | some (l, rest) => (l ++ ['\n'], rest)
  | none => (s, [])

/-- The scanner behind `emailSplit`: `acc` holds the current line
(reversed); a line terminator is `\r\n`, `\r` or `\n`, and an empty
line ends the header block, leaving the remainder as the payload. -/
def emailSplitAux : Str → Str → List Str × Str
  | [], acc => (if acc = [] then [] else [acc.reverse], [])
  | '\r' :: '\n' :: rest, acc =>
    if acc = [] then ([], rest)
    else
      let p := emailSplitAux rest []
      (acc.reverse :: p.1, p.2)
  | '\r' :: rest, acc =>
    if acc = [] then ([], rest)
    else
      let p := emailSplitAux rest []
      (acc.reverse :: p.1, p.2)
  | '\n' :: rest, acc =>
    if acc = [] then ([], rest)
    else
      let p := emailSplitAux rest []
      (acc.reverse :: p.1, p.2)
  | c :: rest, acc => emailSplitAux rest (c :: acc)

/-- The `email` header/body division of a message text: header lines up
to the first blank line, then the payload verbatim. -/
def emailSplit (s : Str) : List Str × Str := emailSplitAux s []

/-- A recorded callback invocation: which subrequest (by resolved list
position), with the arguments `(url, response, content)`. -/
structure Invocation where
  reqIndex : Nat
  uri : Str
  status : Int
  respHeaders : List (Str × Str)
  body : Str
deriving DecidableEq, Repr

/-- `Request.decode_response`: dead callback raises `ReferenceError`
before anything; otherwise the transfer-decoded part payload is split
into a status line (`readline`) and an email message, the status code
token is extracted (`IndexError` when the `HTTP/` form lacks one,
`ValueError` when non-numeric), headers are lower-cased, the cache
post-processing hook runs, and the callback receives
`(reqinfo.uri, response, body)`. The two `body is None` guards cannot
fire here: the parsed email payload and the hook are total strings. -/
def decode_response (agent : Agent) (req : ClientRequest) (part : MIMEPart) :
    Except ClientError (Str × Int × List (Str × Str) × Str) :=
  if !req.alive then .error .referenceError
  else
    let messagetext := parse_subrequest part
    let rl := readline messagetext
    let em := emailSplit rl.2
    let msgHeaders := em.1.filterMap (fun l =>
      (splitAtChar1 ':' l).map (fun p => (lower p.1, strip p.2)))
    let statusTok :=
      if startsWith (lit "HTTP/") rl.1 then (splitOnChar ' ' rl.1).get? 1
      else (splitOnChar ' ' rl.1).get? 0
    match statusTok with
    | none => .error .indexError
    | some tok =>
      match pyInt tok with
      | none => .error .valueError
      | some code =>
        let ur := update_response_from_cache agent ⟨code, msgHeaders⟩ em.2
        .ok (req.uri, ur.1.status, ur.1.headers, ur.2)

/-- The body of the dispatch loop in `BatchRequest.handle_response` for
one part: content-type check, `Multipart-Request-ID` extraction
(`int(None)` is a `TypeError`; the dead `KeyError` handler never fires,
the `ValueError` handler yields the `BatchError`), then the unvalidated
`self.requests[request_id-1]` subscription and the dispatch with its
`ReferenceError` suppression. -/
def dispatchPart (agent : Agent) (reqs : List ClientRequest) (part : MIMEPart) :
    Except ClientError (Option Invocation) :=
  if !(part.maintype = lit "application" && part.subtype = lit "http-response") then
    .error (.batchError "Batch response included a part that was not an HTTP response message")
  else
    match part.request_id with
    | none => .error .typeError
    | some idStr =>
      match pyInt idStr with
      | none => .error (.batchError "Batch response included a part with an invalid Multipart-Request-ID header")
      | some rid =>
        match pyIndex reqs (rid - 1) with
        | .error e => .error e
        | .ok (i, req) =>
          match decode_response agent req part with
          | .error .referenceError => .ok none
          | .error e => .error e
          | .ok (uri, status, hdrs, body) => .ok (some ⟨i, uri, status, hdrs, body⟩)

/-- The batch-POST response as the client sees it after the external
`email.FeedParser` pass: outer status and reason, whether the parsed
message is multipart, and its parts. -/
structure BatchNetResponse where
  status : Int
  reason : Str
  isMultipart : Bool
  parts : List MIMEPart
deriving DecidableEq, Repr

/-- The `for part in messages` loop: invocations recorded so far are
kept when a later part raises. -/
def dispatchLoop (agent : Agent) (reqs : List ClientRequest) :
    List MIMEPart → List Invocation → List Invocation × Except ClientError Unit
  | [], acc => (acc, .ok ())
  | p :: ps, acc =>
    match dispatchPart agent reqs p with
    | .error e => (acc, .error e)
    | .ok none => dispatchLoop agent reqs ps acc
    | .ok (some inv) => dispatchLoop agent reqs ps (acc ++ [inv])

/-- `BatchRequest.handle_response`: the `207` gate first, then the
multipart gate, then per-part dispatch. Returns the invocations that
happened and the final outcome. -/
def handle_response (agent : Agent) (b : CBatchRequest) (resp : BatchNetResponse) :
    List Invocation × Except ClientError Unit :=
  if resp.status ≠ 207 then ([], .error (.nonBatchResponse resp.status resp.reason))
  else if !resp.isMultipart then
    ([], .error (.batchError "Response was not a MIME multipart response set"))
  else dispatchLoop agent b.requests resp.parts []

deriving instance DecidableEq for Except

/-- A performed network call of the batch client. -/
structure NetCall where
  url : Str
  method : Str
  headers : List (Str × Str)
  content : MultipartMsg
deriving DecidableEq, Repr

/-- Observable outcome of `BatchRequest.process` /
`BatchClient.complete_batch`: network calls made, callbacks invoked,
whether the empty-batch warning was logged, and the final result. -/
structure ProcessOut where
  calls : List NetCall
  invocations : List Invocation
  warned : Bool
  result : Except ClientError Unit
deriving DecidableEq, Repr

/-- `BatchRequest.process`: construct, and only when both headers and
body are truthy, POST to `urljoin(endpoint, '/batch-processor')` and
dispatch the response. -/
def process (agent : Agent) (net : Str → MultipartMsg → BatchNetResponse)
    (b : CBatchRequest) (endpoint : Str) (boundary : Str) : ProcessOut :=
  match construct agent boundary b with
  | .error e => ⟨[], [], false, .error e⟩
  | .ok ⟨none, w⟩ => ⟨[], [], w, .ok ()⟩
  | .ok ⟨some (headers, content), w⟩ =>
    let batch_url := urljoin endpoint (lit "/batch-processor")
    let resp := net batch_url content
    let hr := handle_response agent b resp
    ⟨[⟨batch_url, lit "POST", headers, content⟩], hr.1, w, hr.2⟩

/-- The `BatchClient` fields the lifecycle reads and writes: the
configured endpoint and the at-most-one open `BatchRequest`
(`hasattr(self, 'batchrequest')` is `Option.isSome`). -/
structure BatchClientState where
  endpoint : Option Str
  batchrequest : Option CBatchRequest
deriving DecidableEq, Repr

/-- `BatchClient.batch_request`: raise `BatchError` when a batch is
already open (the state is untouched), otherwise install a fresh empty
`BatchRequest`. -/
def batch_request (st : BatchClientState) :
    BatchClientState × Except ClientError Unit :=
  match st.batchrequest with
  | some _ => (st, .error (.batchError "There\x27s already an open batch request"))
  | none => ({ st with batchrequest := some ⟨[]⟩ }, .ok ())

/-- `BatchClient.batch`: append a subrequest, `BatchError` when no batch
is open. -/
def batchAdd (st : BatchClientState) (r : ClientRequest) :
    BatchClientState × Except ClientError Unit :=
  match st.batchrequest with
  | none => (st, .error (.batchError "There\x27s no open batch request to add an object to"))
  | some b => ({ st with batchrequest := some ⟨b.requests ++ [r]⟩ }, .ok ())

/-- `BatchClient.complete_batch`: `BatchError` without an open batch or
without an endpoint; otherwise run `process`, discarding the batch on
both normal and exceptional exit (the `finally`). -/
def complete_batch (agent : Agent) (net : Str → MultipartMsg → BatchNetResponse)
    (boundary : Str) (st : BatchClientState) : BatchClientState × ProcessOut :=
  match st.batchrequest with
  | none =>
    (st, ⟨[], [], false, .error (.batchError "There\x27s no open batch request to complete")⟩)
  | some b =>
    match st.endpoint with
    | none =>
      (st, ⟨[], [], false,
        .error (.batchError "There\x27s no batch processor endpoint to which to send a batch request")⟩)
    | some ep => ({ st with batchrequest := none }, process agent net b ep boundary)

/-- `BatchClient.clear_batch`. -/
def clear_batch (st : BatchClientState) : BatchClientState :=
  { st with batchrequest := none }

/-! ## The fan-out proxy (`batchproxy.py`)

The Twisted machinery is modelled at its interface: an inbound batch
POST carries its received headers and (already email-parsed, see the
`MultipartMsg` convention) multipart body; each upstream connection
produces some buffered byte string into its own `StringTransport`;
the order in which upstreams complete is an explicit schedule of
indices, and `DeferredList` fires `render_batch` once every index has
completed. -/

/-- Errors of the proxy path. -/
inductive ProxyErr where
  | py (e : PyErr)
  | keyError
  | unsupportedMethod
deriving DecidableEq, Repr

/-- The inbound batch POST as `BatchProxyResource` sees it. -/
structure ProxyInbound where
  method : Str
  receivedHeaders : List (Str × Str)
  content : MultipartMsg
deriving DecidableEq, Repr

/-- `BatchProxyResource.getChild`: copy the received `host` header into
`x-forwarded-host` on the inbound request (a missing `host` raises
`KeyError`). -/
def getChild (req : ProxyInbound) : Except ProxyErr ProxyInbound :=
  match dictGet req.receivedHeaders (lit "host") with
  | none => .error .keyError
  | some h =>
    .ok { req with
          receivedHeaders := dictSet req.receivedHeaders (lit "x-forwarded-host") h }

/-- `BatchProxyResource.parse_batch_request`: run the multipart parser
over the inbound body and strip the hop-by-hop headers from each inner
request. -/
def parse_batch_request (req : ProxyInbound) : Except ProxyErr (List HTTPRequest) :=
  match runHTTPParser req.content with
  | .error e => .error (.py e)
  | .ok out =>
    .ok (out.requests.map (fun r =>
      { r with headers := r.headers.filter (fun h =>
          !(lower h.1 = lit "connection" || lower h.1 = lit "proxy-connection")) }))

/-- What `BatchProxyClient.connectionMade` writes upstream: the command
with `request.path` as the request target, the inner headers with the
appended `('connection', 'close')`, then the body. -/
structure ForwardedRequest where
  command : Str
  rest : Str
  version : Str
  headers : List (Str × Str)
  data : Str
deriving DecidableEq, Repr

/-- Build the upstream request for one parsed inner request
(`BatchRequest.process` → `BatchProxyClientFactory` →
`BatchProxyClient.__init__`). -/
def mkForward (r : HTTPRequest) : ForwardedRequest :=
  ⟨r.command, r.path, r.version, r.headers ++ [(lit "connection", lit "close")], r.data⟩

/-- Per-upstream `StringTransport` buffers after the completions in
`sched` have happened: completion of upstream `i` stores its buffered
response bytes `results[i]`. -/
def fillBuffers (results : List Str) (sched : List Nat) : List (Option Str) :=
  sched.foldl (fun bufs i => bufs.set i (some (results.getD i [])))
    (List.replicate results.length none)

/-- The `207 Multi-Status` reply `render_batch` writes (the `Date`,
`Server` and `Content-Length` headers depend on the wall clock and the
serialized length and are not modelled). -/
structure ProxyResponse where
  status : Nat
  allow : Str
  contentType : Str
  mimeVersion : Str
  message : MultipartMsg
deriving DecidableEq, Repr

/-- `BatchProxyResource.render_batch`: zip the batch subrequests (in
input order) with their buffered upstream bytes and emit one
`application/http-response` part per subrequest, tagged with
`str(request.request_id)`. -/
def render_batch (pairs : List (HTTPRequest × Str)) (boundary : Str) : ProxyResponse :=
  { status := 207, allow := lit "POST",
    contentType := batchContentType boundary, mimeVersion := lit "1.0",
    message := ⟨pairs.map (fun p => HTTPResponseMessage p.2 (pyStrOpt p.1.request_id))⟩ }

/-- `BatchProxyResource.render` for the batch path, end to end:
`getChild` has set `x-forwarded-host`, non-POST methods are rejected,
the body is split into inner requests which are forwarded, and once the
schedule has completed every upstream the multipart reply is rendered.
Returns the upstream requests sent and the final reply. -/
def proxySession (req : ProxyInbound) (results : List Str) (sched : List Nat)
    (boundary : Str) : Except ProxyErr (List ForwardedRequest × ProxyResponse) :=
  match getChild req with
  | .error e => .error e
  | .ok req1 =>
    if lower req.method ≠ lit "post" then .error .unsupportedMethod
    else
      match parse_batch_request req1 with
      | .error e => .error e
      | .ok rs =>
        let bufs := fillBuffers results sched
        .ok (rs.map mkForward,
             render_batch (rs.zip (bufs.map (fun b => b.getD []))) boundary)

/-! ## The round-trip pipeline (claim C2)

`encodeRequests` is the encoder of the round-trip law: a
`MultipartHTTPMessage` whose parts are `HTTPRequestMessage`s over the
given inner request byte strings, ids assigned in order as the client
does. The decoder is `HTTPParser`; `HTTPRequest.__str__`
(`renderHTTPRequest`) maps the parsed requests back to byte strings. -/

/-- The multipart encoding of a list of inner HTTP request texts. -/
def encodeRequests (R : List Str) : MultipartMsg :=
  ⟨R.enum.map (fun p => HTTPRequestMessage p.2 (pyStrNat (p.1 + 1)))⟩

/-- The request list recovered by `HTTPParser`. -/
def decodeRequests (msg : MultipartMsg) : Except PyErr (List HTTPRequest) :=
  (runHTTPParser msg).map (·.requests)

/-- Replace CRLF by LF (the CRLF canonicalization of the claim). -/
def crlfToLF : Str → Str
  | [] => []
  | '\r' :: '\n' :: rest => '\n' :: crlfToLF rest
  | c :: rest => c :: crlfToLF rest

/-- Lower-case the header-name portion of one header line. -/
def canonHeaderLine (l : Str) : Str :=
  match splitAtChar1 ':' l with
  | some (hd, v) => lower hd ++ ':' :: v
  | none => l

/-- Canonicalize the header block: lines up to the first blank line get
their names lowered. -/
def canonHeads : List Str → List Str
  | [] => []
  | l :: ls => if l = [] then l :: ls else canonHeaderLine l :: canonHeads ls

/-- Join lines with LF. -/
def joinLF : List Str → Str
  | [] => []
  | [l] => l
  | l :: ls => l ++ '\n' :: joinLF ls

/-- The normalization the claim allows: CRLF canonicalization plus
header-name case normalization (the first line is the request line; the
lines after the first blank line are body). -/
def canonReq (s : Str) : Str :=
  match splitOnChar '\n' (crlfToLF s) with
  | [] => []
  | l0 :: rest => joinLF (l0 :: canonHeads rest)

/-- Equality of inner request byte strings up to the claim's allowed
normalizations. -/
def ReqEquiv (a b : Str) : Prop := canonReq a = canonReq b

/-- One inner HTTP request in structured (wire) form: the round-trip
law is quantified over the byte strings these render to. -/
structure WireRequest where
  command : Str
  uri : Str
  version : Str
  headers : List (Str × Str)
  body : Str
deriving DecidableEq, Repr

/-- One rendered header line (before its CRLF). -/
def renderHL (p : Str × Str) : Str := p.1 ++ lit ": " ++ p.2

/-- The request line of a wire request. -/
def reqLineOf (w : WireRequest) : Str :=
  w.command ++ [' '] ++ w.uri ++ [' '] ++ w.version

/-- The byte string of a wire request: request line, header lines,
blank separator, body — all with CRLF line endings. -/
def renderWire (w : WireRequest) : Str :=
  reqLineOf w ++ lit "\r\n" ++
    (w.headers.map (fun p => renderHL p ++ lit "\r\n")).flatten ++
    lit "\r\n" ++ w.body

/-- A request-line token: nonempty, free of Python whitespace (hence of
CR and LF). -/
def wfToken (t : Str) : Prop := t ≠ [] ∧ ∀ c ∈ t, isPySpace c = false

/-- A well-formed header pair as the round-trip law needs it: name
nonempty, colon-free, CR/LF-free, not starting with fold whitespace and
already lower-case; value CR/LF-free and strip-invariant; a
`content-length` value must parse as an int (the parser calls `int`). -/
def wfHeader (p : Str × Str) : Prop :=
  p.1 ≠ [] ∧ (∀ c ∈ p.1, c ≠ ':' ∧ c ≠ '\r' ∧ c ≠ '\n') ∧
  p.1.head? ≠ some ' ' ∧ p.1.head? ≠ some '\t' ∧ lower p.1 = p.1 ∧
  (∀ c ∈ p.2, c ≠ '\r' ∧ c ≠ '\n') ∧ strip p.2 = p.2 ∧
  (p.1 = lit "content-length" → (pyInt p.2).isSome)

/-- Well-formedness of a wire request for the amended round-trip law:
proper tokens, an origin-form URI (one `parse_uri` maps to itself with
empty scheme and host), well-formed headers, the POST empty-line quirk
avoided, and byte-valued characters. -/
def WfWire (w : WireRequest) : Prop :=
  wfToken w.command ∧ wfToken w.uri ∧ wfToken w.version ∧
  (∀ p ∈ w.headers, wfHeader p) ∧
  (w.headers ≠ [] ∨ w.command ≠ lit "POST") ∧
  parse_uri w.uri = ([], [], w.uri) ∧
  (∀ c ∈ renderWire w, c.toNat < 256)

/-- The joint effect of one `process_header` call on a well-formed
rendered header line. -/
def stApply (st : HReqState) (p : Str × Str) : HReqState :=
  if p.1 = lit "content-length" then
    { st with length := pyInt p.2, headers := st.headers ++ [p] }
  else if p.1 = lit "content-type" then
    { st with content_type := some p.2, headers := st.headers ++ [p] }
  else if p.1 = lit "host" && st.host = [] then
    { st with host := p.2, headers := st.headers ++ [p] }
  else { st with headers := st.headers ++ [p] }

/-- `stApply` folded over a header list. -/
def foldHeaders (st : HReqState) (hs : List (Str × Str)) : HReqState :=
  hs.foldl stApply st

/-- The parse result the round-trip law predicts for a well-formed wire
request. -/
def wireRecordOf (w : WireRequest) (rid : Option Str) : HTTPRequest :=
  { command := w.command, request_uri := w.uri, version := w.version,
    scheme := [], path := w.uri,
    host := (foldHeaders ⟨none, none, [], []⟩ w.headers).host,
    headers := (foldHeaders ⟨none, none, [], []⟩ w.headers).headers,
    length := (foldHeaders ⟨none, none, [], []⟩ w.headers).length,
    content_type := (foldHeaders ⟨none, none, [], []⟩ w.headers).content_type,
    request_id := rid, data := w.body }

/-! ## Shared concrete fixtures for the claim theorems -/

/-- An agent with no cache and no authorizations (hooks never run). -/
def plainAgent : Agent :=
  ⟨false, fun _ h b => (h, b), fun r b => (r, b)⟩

/-- A live subrequest for a given URI. -/
def liveReq (u : String) : ClientRequest := ⟨lit u, [], none, true⟩

/-- A subrequest whose callback has been collected. -/
def deadReq (u : String) : ClientRequest := ⟨lit u, [], none, false⟩

/-- A well-formed `application/http-response` part with the given
`Multipart-Request-ID` and an identity-encoded payload. -/
def respPart (id : String) : MIMEPart :=
  ⟨lit "application", lit "http-response", some (lit id), [],
   lit "HTTP/1.1 200 OK\r\ncontent-type: text/plain\r\n\r\nhello"⟩

/-- The parts `constructGo` produces: one per live subrequest, carrying
its positional id. -/
def partsFrom (agent : Agent) : List ClientRequest → Nat → List MIMEPart
  | [], _ => []
  | r :: rs, i =>
    if r.alive then
      HTTPRequestMessage (requestText agent r) (pyStrNat i) :: partsFrom agent rs (i + 1)
    else partsFrom agent rs (i + 1)

/-- The id column of `partsFrom`. -/
def aliveIdsFrom : List ClientRequest → Nat → List (Option Str)
  | [], _ => []
  | r :: rs, i =>
    if r.alive then some (pyStrNat i) :: aliveIdsFrom rs (i + 1)
    else aliveIdsFrom rs (i + 1)

/-- The concrete two-subrequest inbound batch used as C4 and C5
fixture. -/
def c4Inbound : ProxyInbound :=
  ⟨lit "POST",
   [(lit "host", lit "client.example")],
   ⟨[⟨lit "application", lit "http-request", some (lit "1"), [],
      lit "GET http://up.example/a HTTP/1.1\r\nhost: up.example\r\n\r\n"⟩,
     ⟨lit "application", lit "http-request", some (lit "2"), [],
      lit "GET http://up.example/b HTTP/1.1\r\nhost: up.example\r\n\r\n"⟩]⟩⟩

/-- The inbound request after `getChild` has set `x-forwarded-host`. -/
def c4Inbound1 : ProxyInbound :=
  { c4Inbound with
    receivedHeaders := c4Inbound.receivedHeaders ++
      [(lit "x-forwarded-host", lit "client.example")] }

/-- The two inner requests `parse_batch_request` yields for the
fixture. -/
def c4Parsed : List HTTPRequest :=
  [{ command := lit "GET", request_uri := lit "http://up.example/a",
     version := lit "HTTP/1.1", scheme := lit "http", host := lit "up.example",
     path := lit "/a", headers := [(lit "host", lit "up.example")],
     length := none, content_type := none, request_id := some (lit "1"), data := [] },
   { command := lit "GET", request_uri := lit "http://up.example/b",
     version := lit "HTTP/1.1", scheme := lit "http", host := lit "up.example",
     path := lit "/b", headers := [(lit "host", lit "up.example")],
     length := none, content_type := none, request_id := some (lit "2"), data := [] }]

/-- The inbound request after `getChild` wrote `x-forwarded-host`. -/
def withXFH (req : ProxyInbound) (hostv : Str) : ProxyInbound :=
  { req with receivedHeaders := dictSet req.receivedHeaders (lit "x-forwarded-host") hostv }

/-! ## Claim theorems -/

/-- Claim C10: the inner HTTP response parser is not total. On a
response whose header block is never terminated by a blank line,
`HTTPResponse` raises `IndexError` from the unguarded `lines.pop(0)`
rather than `BadResponseException`, while `HTTPRequest` on input of the
same shape breaks out of its guarded loop and parses successfully. -/
theorem c10_response_header_loop_not_total :
    parseHTTPResponse (lit "HTTP/1.1 200 OK\r\nfoo: bar") = .error .indexError ∧
    parseHTTPRequest (lit "GET /x HTTP/1.1\r\nfoo: bar") [] none =
      .ok { command := lit "GET", request_uri := lit "/x", version := lit "HTTP/1.1",
            scheme := [], host := [], path := lit "/x",
            headers := [(lit "foo", lit "bar")], length := none,
            content_type := none, request_id := none, data := [] } := by
  exact ⟨by decide, by decide⟩

/-- Claim C9: `handle_response` subscripts `requests[request_id-1]`
with no range validation: a well-formed part with ID 3 against two
subrequests raises an uncaught `IndexError` (not a `BatchError`), and a
part with ID 0 dispatches to the *last* subrequest through Python
negative indexing instead of being rejected. -/
theorem c9_dispatch_indexing_unvalidated :
    handle_response plainAgent ⟨[liveReq "http://example.com/a", liveReq "http://example.com/b"]⟩
        ⟨207, lit "Multi-Status", true, [respPart "3"]⟩ = ([], .error .indexError) ∧
    handle_response plainAgent ⟨[liveReq "http://example.com/a", liveReq "http://example.com/b"]⟩
        ⟨207, lit "Multi-Status", true, [respPart "0"]⟩ =
      ([⟨1, lit "http://example.com/b", 200,
         [(lit "content-type", lit "text/plain")], lit "hello"⟩], .ok ()) := by
  exact ⟨by decide, by rfl⟩

/-- Claim C7: a second `open()` with a batch already open fails with the
`BatchError` and leaves the client state — in particular the open batch
and its subrequests — untouched. -/
theorem c7_second_open_fails (st : BatchClientState) (b : CBatchRequest)
    (h : st.batchrequest = some b) :
    batch_request st =
      (st, .error (.batchError "There\x27s already an open batch request")) := by
  unfold batch_request
  rw [h]

/-- Witness for C7 at a concrete state. -/
theorem c7_second_open_fails_witness :
    batch_request ⟨some (lit "http://e.com/"), some ⟨[liveReq "http://example.com/a"]⟩⟩ =
      (⟨some (lit "http://e.com/"), some ⟨[liveReq "http://example.com/a"]⟩⟩,
       .error (.batchError "There\x27s already an open batch request")) :=
  c7_second_open_fails _ ⟨[liveReq "http://example.com/a"]⟩ rfl

/-- Claim C6: when every callback of an open batch is dead, `complete`
logs the warning, performs no network call, invokes nothing, clears the
batch and returns successfully. -/
theorem c6_all_dead_no_network (agent : Agent)
    (net : Str → MultipartMsg → BatchNetResponse) (boundary : Str)
    (st : BatchClientState) (b : CBatchRequest) (ep : Str)
    (hb : st.batchrequest = some b) (hep : st.endpoint = some ep)
    (hdead : ∀ r ∈ b.requests, r.alive = false) :
    complete_batch agent net boundary st =
      ({ st with batchrequest := none }, ⟨[], [], true, .ok ()⟩) := by
  have hlen : batchLen b = 0 := by
    unfold batchLen
    rw [List.filter_eq_nil_iff.mpr (by intro r hr; simp [hdead r hr])]
    rfl
  simp only [complete_batch, hb, hep, process, construct, hlen, if_pos]

/-- Witness for C6. -/
theorem c6_all_dead_no_network_witness :
    complete_batch plainAgent (fun _ _ => ⟨207, lit "Multi-Status", true, []⟩) (lit "bnd")
        ⟨some (lit "http://e.com/"), some ⟨[deadReq "http://example.com/a"]⟩⟩ =
      (⟨some (lit "http://e.com/"), none⟩, ⟨[], [], true, .ok ()⟩) :=
  c6_all_dead_no_network plainAgent _ _ _ ⟨[deadReq "http://example.com/a"]⟩ _ rfl rfl
    (by decide)

/-! ### C1: behavior of `construct` when a callback has died -/

theorem constructGo_eq (agent : Agent) (rs : List ClientRequest) (i : Nat)
    (hascii : ∀ r ∈ rs, r.alive = true →
      (requestText agent r).all (fun c => c.toNat < 128) = true) :
    constructGo agent rs i = .ok (partsFrom agent rs i) := by
  induction rs generalizing i with
  | nil => rfl
  | cons r rs ih =>
    have ihr := ih (i + 1) (fun r h => hascii r (List.mem_cons_of_mem _ h))
    cases ha : r.alive with
    | false =>
      have hm : asMessage agent r i = .error .referenceError := by
        simp [asMessage, ha]
      simp [constructGo, hm, partsFrom, ha, ihr]
    | true =>
      have hm : asMessage agent r i =
          .ok (HTTPRequestMessage (requestText agent r) (pyStrNat i)) := by
        simp [asMessage, ha, hascii r (by simp) ha]
      simp [constructGo, hm, partsFrom, ha, ihr, Except.map]

theorem partsFrom_request_ids (agent : Agent) (rs : List ClientRequest) (i : Nat) :
    (partsFrom agent rs i).map (·.request_id) = aliveIdsFrom rs i := by
  induction rs generalizing i with
  | nil => rfl
  | cons r rs ih =>
    cases ha : r.alive <;> simp [partsFrom, aliveIdsFrom, ha, ih, HTTPRequestMessage]

theorem partsFrom_length (agent : Agent) (rs : List ClientRequest) (i : Nat) :
    (partsFrom agent rs i).length = (rs.filter (·.alive)).length := by
  induction rs generalizing i with
  | nil => rfl
  | cons r rs ih =>
    cases ha : r.alive <;> simp [partsFrom, ha, ih, List.filter_cons]

theorem aliveIdsFrom_append (xs ys : List ClientRequest) (i : Nat) :
    aliveIdsFrom (xs ++ ys) i = aliveIdsFrom xs i ++ aliveIdsFrom ys (i + xs.length) := by
  induction xs generalizing i with
  | nil => simp [aliveIdsFrom]
  | cons r xs ih =>
    cases ha : r.alive <;>
      simp [aliveIdsFrom, ha, ih, Nat.add_assoc, Nat.add_comm 1 xs.length]

theorem aliveIdsFrom_all_alive (rs : List ClientRequest) (i : Nat)
    (h : ∀ r ∈ rs, r.alive = true) :
    aliveIdsFrom rs i = (List.range rs.length).map (fun j => some (pyStrNat (i + j))) := by
  induction rs generalizing i with
  | nil => rfl
  | cons r rs ih =>
    rw [List.length_cons, List.range_succ_eq_map]
    simp only [aliveIdsFrom, h r (by simp), if_pos]
    rw [ih (i + 1) (fun r hr => h r (List.mem_cons_of_mem _ hr))]
    rw [List.map_cons, List.map_map]
    refine congrArg₂ (· :: ·) (by simp) (List.map_congr_left ?_)
    intro j _
    simp only [Function.comp_apply, Nat.succ_eq_add_one]
    rw [show i + 1 + j = i + (j + 1) by omega]

/-- Dispatching never reaches a dead callback: a successful
`dispatchPart` invocation names a live subrequest. -/
theorem pyIndex_ok {α : Type} {xs : List α} {i : Int} {j : Nat} {a : α}
    (h : pyIndex xs i = .ok (j, a)) : xs.get? j = some a := by
  simp only [pyIndex] at h
  split at h <;>
    (split at h
     · split at h
       · rename_i heq
         rw [Except.ok.injEq, Prod.mk.injEq] at h
         rw [← h.1, ← h.2]
         exact heq
       · exact absurd h (by simp)
     · exact absurd h (by simp))

theorem dispatchPart_alive {agent : Agent} {reqs : List ClientRequest}
    {part : MIMEPart} {inv : Invocation}
    (h : dispatchPart agent reqs part = .ok (some inv)) :
    ∃ req, reqs.get? inv.reqIndex = some req ∧ req.alive = true := by
  unfold dispatchPart at h
  split at h
  · exact absurd h (by simp)
  · split at h
    · exact absurd h (by simp)
    · split at h
      · exact absurd h (by simp)
      · split at h
        · exact absurd h (by simp)
        · rename_i i req hidx
          split at h
          · exact absurd h (by simp)
          · exact absurd h (by simp)
          · rename_i uri status hdrs body hdec
            rw [Except.ok.injEq, Option.some.injEq] at h
            cases hal : req.alive with
            | false => simp [decode_response, hal] at hdec
            | true =>
              refine ⟨req, ?_, hal⟩
              rw [← h]
              exact pyIndex_ok hidx

theorem dispatchLoop_alive {agent : Agent} {reqs : List ClientRequest}
    {parts : List MIMEPart} {acc : List Invocation} {inv : Invocation}
    (h : inv ∈ (dispatchLoop agent reqs parts acc).1) :
    inv ∈ acc ∨ ∃ req, reqs.get? inv.reqIndex = some req ∧ req.alive = true := by
  induction parts generalizing acc with
  | nil => exact Or.inl h
  | cons p ps ih =>
    unfold dispatchLoop at h
    split at h
    · exact Or.inl h
    · exact ih h
    · rename_i inv2 hpart
      rcases ih h with hin | hex
      · rcases List.mem_append.mp hin with hin | hin
        · exact Or.inl hin
        · rw [List.mem_singleton.mp hin]
          exact Or.inr (dispatchPart_alive hpart)
      · exact Or.inr hex

theorem handle_response_alive {agent : Agent} {b : CBatchRequest}
    {resp : BatchNetResponse} {inv : Invocation}
    (h : inv ∈ (handle_response agent b resp).1) :
    ∃ req, b.requests.get? inv.reqIndex = some req ∧ req.alive = true := by
  unfold handle_response at h
  split at h
  · simp at h
  · split at h
    · simp at h
    · rcases dispatchLoop_alive h with hin | hex
      · simp at hin
      · exact hex

/-- Claim C1, counterexample: three subrequests with the second
callback dead. `construct` emits two parts (N−1), but their
`Multipart-Request-ID`s are 1 and 3 — the positional ids with 2
skipped — not the dense range 1..2 the claim asserts. -/
theorem c1_counterexample_ids_not_dense :
    (construct plainAgent (lit "bnd")
        ⟨[liveReq "http://example.com/a", deadReq "http://example.com/b",
          liveReq "http://example.com/c"]⟩).map
        (fun o => o.result.map (fun hc => hc.2.parts.map (·.request_id))) =
      .ok (some [some (lit "1"), some (lit "3")]) ∧
    [some (lit "1"), some (lit "3")] ≠
      (List.range 2).map (fun j => some (pyStrNat (1 + j))) := by
  exact ⟨by rfl, by decide⟩

/-- Claim C1, amended: for a batch `A ++ [rk] ++ B` in which exactly the
callback of `rk` (position `k = A.length`, id `k+1`) has died,
`construct` emits `N−1` parts whose ids are the 1-based *positions* of
the surviving subrequests — the dense 1..N with `k+1` omitted, which is
a contiguous range only when `rk` was last — and no response can make
`handle_response` invoke the dead callback. -/
theorem c1_amended_positional_ids (agent : Agent) (boundary : Str)
    (A B : List ClientRequest) (rk : ClientRequest) (resp : BatchNetResponse)
    (hA : ∀ r ∈ A, r.alive = true) (hB : ∀ r ∈ B, r.alive = true)
    (hk : rk.alive = false) (hne : A ≠ [] ∨ B ≠ [])
    (hascii : ∀ r ∈ A ++ rk :: B, r.alive = true →
      (requestText agent r).all (fun c => c.toNat < 128) = true) :
    (construct agent boundary ⟨A ++ rk :: B⟩).map
        (fun o => o.result.map (fun hc => hc.2.parts)) =
      .ok (some (partsFrom agent (A ++ rk :: B) 1)) ∧
    (partsFrom agent (A ++ rk :: B) 1).length = (A ++ rk :: B).length - 1 ∧
    (partsFrom agent (A ++ rk :: B) 1).map (·.request_id) =
      (List.range A.length).map (fun j => some (pyStrNat (1 + j))) ++
      (List.range B.length).map (fun j => some (pyStrNat (A.length + 2 + j))) ∧
    ∀ inv ∈ (handle_response agent ⟨A ++ rk :: B⟩ resp).1, inv.reqIndex ≠ A.length := by
  have hfilter : (A ++ rk :: B).filter (·.alive) = A ++ B := by
    rw [List.filter_append, List.filter_cons]
    simp only [hk]
    rw [List.filter_eq_self.mpr (by intro r hr; simp [hA r hr]),
        List.filter_eq_self.mpr (by intro r hr; simp [hB r hr])]
    rfl
  have hlen : batchLen ⟨A ++ rk :: B⟩ = A.length + B.length := by
    unfold batchLen
    rw [hfilter, List.length_append]
  have hlenpos : ¬ batchLen ⟨A ++ rk :: B⟩ = 0 := by
    rw [hlen]
    rcases hne with h | h
    · have := List.length_pos.mpr h
      omega
    · have := List.length_pos.mpr h
      omega
  refine ⟨?_, ?_, ?_, ?_⟩
  · simp only [construct, if_neg hlenpos, constructGo_eq agent _ 1 hascii]
    rfl
  · rw [partsFrom_length, hfilter, List.length_append, List.length_append,
        List.length_cons]
    omega
  · rw [partsFrom_request_ids, aliveIdsFrom_append,
        aliveIdsFrom_all_alive A 1 hA]
    have hmid : aliveIdsFrom (rk :: B) (1 + A.length) = aliveIdsFrom B (A.length + 2) := by
      simp [aliveIdsFrom, hk]
      exact congrArg (aliveIdsFrom B) (by omega)
    rw [hmid, aliveIdsFrom_all_alive B _ hB]
  · intro inv hinv
    rcases handle_response_alive hinv with ⟨req, hget, halive⟩
    intro hidx
    rw [hidx] at hget
    have h0 : (A ++ rk :: B).get? A.length = some rk := by
      rw [List.get?_append_right (Nat.le_refl _)]
      simp
    rw [h0] at hget
    have hreq : req = rk := (Option.some.inj hget).symm
    rw [hreq, hk] at halive
    exact absurd halive (by decide)

/-- Witness for C1 (amended) at the three-subrequest batch of the
counterexample: ids `[1, 3]`, two parts, and the dead position 1 never
invoked for a concrete in-order response. -/
theorem c1_amended_positional_ids_witness :
    (construct plainAgent (lit "bnd")
        ⟨[liveReq "http://example.com/a"] ++ deadReq "http://example.com/b" ::
          [liveReq "http://example.com/c"]⟩).map
        (fun o => o.result.map (fun hc => hc.2.parts)) =
      .ok (some (partsFrom plainAgent
        ([liveReq "http://example.com/a"] ++ deadReq "http://example.com/b" ::
          [liveReq "http://example.com/c"]) 1)) ∧
    (partsFrom plainAgent
        ([liveReq "http://example.com/a"] ++ deadReq "http://example.com/b" ::
          [liveReq "http://example.com/c"]) 1).length =
      ([liveReq "http://example.com/a"] ++ deadReq "http://example.com/b" ::
          [liveReq "http://example.com/c"]).length - 1 ∧
    (partsFrom plainAgent
        ([liveReq "http://example.com/a"] ++ deadReq "http://example.com/b" ::
          [liveReq "http://example.com/c"]) 1).map (·.request_id) =
      (List.range 1).map (fun j => some (pyStrNat (1 + j))) ++
      (List.range 1).map (fun j => some (pyStrNat (1 + 2 + j))) ∧
    ∀ inv ∈ (handle_response plainAgent
        ⟨[liveReq "http://example.com/a"] ++ deadReq "http://example.com/b" ::
          [liveReq "http://example.com/c"]⟩
        ⟨207, lit "Multi-Status", true, [respPart "1", respPart "2", respPart "3"]⟩).1,
      inv.reqIndex ≠ 1 :=
  c1_amended_positional_ids plainAgent (lit "bnd")
    [liveReq "http://example.com/a"] [liveReq "http://example.com/c"]
    (deadReq "http://example.com/b")
    ⟨207, lit "Multi-Status", true, [respPart "1", respPart "2", respPart "3"]⟩
    (by decide) (by decide) (by decide) (by decide) (by decide)

/-! ### C8: the batch POST always targets /batch-processor at the root -/

theorem urlparse_batch_path (s : Str) :
    pyUrlparse (lit "/batch-processor") s =
      ⟨s, [], lit "/batch-processor", [], [], []⟩ := by
  have husplit : urlsplit (lit "/batch-processor") s =
      ⟨s, [], lit "/batch-processor", [], []⟩ := rfl
  have hsemi : hasChar ';' (lit "/batch-processor") = false := by decide
  unfold pyUrlparse
  rw [husplit]
  by_cases hp : usesParams.contains
      (⟨s, [], lit "/batch-processor", [], []⟩ : SplitResult).scheme = true
  · rw [if_pos hp, if_neg (by simp [hsemi])]
  · rw [if_neg hp]

/-- `urljoin(endpoint, '/batch-processor')` replaces any path, params,
query and fragment of the endpoint with `/batch-processor`, keeping only
its scheme and host. -/
theorem urljoin_batch_processor (ep s h p par q f : Str)
    (hparse : pyUrlparse ep [] = ⟨s, h, p, par, q, f⟩)
    (hrel : usesRelative.contains s = true)
    (hnetsch : usesNetloc.contains s = true)
    (hs : s ≠ []) (hh : h ≠ []) (hep : ep ≠ []) :
    urljoin ep (lit "/batch-processor") =
      s ++ lit "://" ++ h ++ lit "/batch-processor" := by
  unfold urljoin
  rw [if_neg hep, if_neg (by decide : ¬ (lit "/batch-processor" = ([] : Str)))]
  rw [hparse, urlparse_batch_path]
  have hrel2 : s ∈ usesRelative := by simpa using hrel
  have hnetsch2 : s ∈ usesNetloc := by simpa using hnetsch
  have hstart2 : startsWith (lit "//") (lit "/batch-processor") = false := by decide
  have hstart1 : startsWith (lit "/") (lit "/batch-processor") = true := by decide
  simp only [urljoinResolved, hrel2, hnetsch2, hs, hh, urlunparse, urlunsplit,
    hstart1, hstart2]
  simp [hrel2, hnetsch2, hs, hh, hstart1, hstart2, List.append_assoc]
  rfl

/-- Claim C8: for any configured endpoint URL with a scheme in the
relative-capable families and a host, `complete` POSTs to the fixed
path `/batch-processor` at the root of the endpoint host, whatever
path, query or fragment the endpoint carried. -/
theorem c8_posts_to_root_batch_processor (agent : Agent)
    (net : Str → MultipartMsg → BatchNetResponse) (b : CBatchRequest)
    (ep boundary : Str) (s h p par q f : Str)
    (hdrs : List (Str × Str)) (content : MultipartMsg) (w : Bool)
    (hc : construct agent boundary b = .ok ⟨some (hdrs, content), w⟩)
    (hparse : pyUrlparse ep [] = ⟨s, h, p, par, q, f⟩)
    (hrel : usesRelative.contains s = true)
    (hnetsch : usesNetloc.contains s = true)
    (hs : s ≠ []) (hh : h ≠ []) (hep : ep ≠ []) :
    (process agent net b ep boundary).calls.map (·.url) =
      [s ++ lit "://" ++ h ++ lit "/batch-processor"] := by
  have hu := urljoin_batch_processor ep s h p par q f hparse hrel hnetsch hs hh hep
  simp [process, hc, hu]

/-- Witness for C8: an endpoint with a deep path and a query. -/
theorem c8_posts_to_root_batch_processor_witness :
    (process plainAgent (fun _ _ => ⟨207, lit "Multi-Status", true, []⟩)
        ⟨[liveReq "http://example.com/a"]⟩
        (lit "http://mysite.example/some/deep/path?x=1") (lit "bnd")).calls.map (·.url) =
      [lit "http" ++ lit "://" ++ lit "mysite.example" ++ lit "/batch-processor"] :=
  c8_posts_to_root_batch_processor plainAgent _ ⟨[liveReq "http://example.com/a"]⟩
    _ _ (lit "http") (lit "mysite.example") (lit "/some/deep/path") [] (lit "x=1") []
    [(lit "MIME-Version", lit "1.0"),
     (lit "Content-Type", batchContentType (lit "bnd")),
     (lit "accept-encoding", lit "gzip;q=1.0, identity; q=0.5, *;q=0")]
    ⟨[HTTPRequestMessage (requestText plainAgent (liveReq "http://example.com/a"))
        (lit "1")]⟩ false
    (by decide) (by decide) (by decide) (by decide) (by decide) (by decide) (by decide)

/-! ### C4, C5: the proxy session -/

theorem foldlSet_length (results : List Str) (sched : List Nat)
    (bufs0 : List (Option Str)) :
    (sched.foldl (fun bufs i => bufs.set i (some (results.getD i []))) bufs0).length =
      bufs0.length := by
  induction sched generalizing bufs0 with
  | nil => rfl
  | cons i sched ih =>
    rw [List.foldl_cons, ih]
    simp

theorem foldlSet_getElem (results : List Str) (sched : List Nat)
    (bufs0 : List (Option Str)) (j : Nat) (hj : j < bufs0.length) :
    (sched.foldl (fun bufs i => bufs.set i (some (results.getD i []))) bufs0)[j]? =
      if j ∈ sched then some (some (results.getD j [])) else bufs0[j]? := by
  induction sched generalizing bufs0 with
  | nil => simp
  | cons i sched ih =>
    rw [List.foldl_cons, ih _ (by simpa using hj)]
    by_cases hmem : j ∈ sched
    · simp [hmem]
    · by_cases hij : j = i
      · subst hij
        simp [hmem, List.getElem?_set_self hj]
      · rw [if_neg hmem, if_neg (by simp [hij, hmem]),
            List.getElem?_set_ne (Ne.symm hij)]

/-- When the completion schedule covers every upstream, the buffers are
exactly the upstream results, whatever the completion order was. -/
theorem fillBuffers_complete (results : List Str) (sched : List Nat)
    (hall : ∀ j, j < results.length → j ∈ sched) :
    fillBuffers results sched = results.map some := by
  apply List.ext_getElem?
  intro j
  by_cases hj : j < results.length
  · rw [fillBuffers, foldlSet_getElem results sched _ j (by simpa using hj),
        if_pos (hall j hj)]
    rw [List.getElem?_map, List.getElem?_eq_getElem hj]
    simp [List.getD, List.getElem?_eq_getElem hj]
  · have h1 : (fillBuffers results sched).length ≤ j := by
      rw [fillBuffers, foldlSet_length]
      simp
      omega
    rw [List.getElem?_eq_none h1, List.getElem?_eq_none (by simp; omega)]

/-- Claim C4: for an inbound batch of `n` subrequest parts, any upstream
results, and any completion schedule covering them (in any order), the
proxy emits a `207` multipart reply with exactly `n` response parts in
the input order of the subrequests, part `i` carrying the
`Multipart-Request-ID` of input part `i`. -/
theorem c4_in_order_reply (req : ProxyInbound) (req1 : ProxyInbound)
    (rs : List HTTPRequest) (results : List Str) (sched : List Nat) (boundary : Str)
    (hg : getChild req = .ok req1)
    (hpost : lower req.method = lit "post")
    (hparse : parse_batch_request req1 = .ok rs)
    (hlen : results.length = rs.length)
    (hall : ∀ j, j < results.length → j ∈ sched) :
    (proxySession req results sched boundary).map Prod.snd =
      .ok { status := 207, allow := lit "POST",
            contentType := batchContentType boundary, mimeVersion := lit "1.0",
            message := ⟨(rs.zip results).map
              (fun p => HTTPResponseMessage p.2 (pyStrOpt p.1.request_id))⟩ } ∧
    ((rs.zip results).map
        (fun p => HTTPResponseMessage p.2 (pyStrOpt p.1.request_id))).length = rs.length ∧
    ((rs.zip results).map
        (fun p => HTTPResponseMessage p.2 (pyStrOpt p.1.request_id))).map (·.request_id) =
      rs.map (fun r => some (pyStrOpt r.request_id)) := by
  have hmapbufs : (fillBuffers results sched).map (fun b => b.getD []) = results := by
    rw [fillBuffers_complete results sched hall, List.map_map]
    have hcomp : ((fun b : Option Str => b.getD []) ∘ some) = id := by
      funext b
      rfl
    rw [hcomp, List.map_id]
  refine ⟨?_, ?_, ?_⟩
  · simp [proxySession, hg, hpost, hparse, render_batch, hmapbufs, Except.map]
  · rw [List.length_map, List.length_zip, hlen, Nat.min_self]
  · rw [List.map_map]
    have h1 : ((fun part : MIMEPart => part.request_id) ∘ fun p : HTTPRequest × Str =>
        HTTPResponseMessage p.2 (pyStrOpt p.1.request_id)) =
        ((fun r => some (pyStrOpt r.request_id)) ∘ Prod.fst) := rfl
    rw [h1, ← List.map_map, List.map_fst_zip rs results (le_of_eq hlen.symm)]

/-- Witness for C4: upstream 1 completes before upstream 0 (schedule
`[1, 0]`), yet the reply parts are in input order with ids 1 then 2. -/
theorem c4_in_order_reply_witness :
    (proxySession c4Inbound [lit "respA", lit "respB"] [1, 0] (lit "b")).map Prod.snd =
      .ok { status := 207, allow := lit "POST",
            contentType := batchContentType (lit "b"), mimeVersion := lit "1.0",
            message := ⟨(c4Parsed.zip [lit "respA", lit "respB"]).map
              (fun p => HTTPResponseMessage p.2 (pyStrOpt p.1.request_id))⟩ } ∧
    ((c4Parsed.zip [lit "respA", lit "respB"]).map
        (fun p => HTTPResponseMessage p.2 (pyStrOpt p.1.request_id))).length =
      c4Parsed.length ∧
    ((c4Parsed.zip [lit "respA", lit "respB"]).map
        (fun p => HTTPResponseMessage p.2 (pyStrOpt p.1.request_id))).map (·.request_id) =
      c4Parsed.map (fun r => some (pyStrOpt r.request_id)) :=
  c4_in_order_reply c4Inbound c4Inbound1 c4Parsed [lit "respA", lit "respB"] [1, 0]
    (lit "b") (by rfl) (by decide) (by rfl) (by decide) (by decide)

/-- Claim C5, counterexample: for a batch POST whose single inner part
has headers `host: up.example`, the request forwarded upstream carries
exactly `host` and the appended `connection: close` — no
`X-Forwarded-Host` header at all, let alone one equal to the inbound
`Host` (`client.example`). -/
theorem c5_counterexample_no_forwarded_host :
    (proxySession
        ⟨lit "POST",
         [(lit "host", lit "client.example")],
         ⟨[⟨lit "application", lit "http-request", some (lit "1"), [],
            lit "GET http://up.example/a HTTP/1.1\r\nhost: up.example\r\n\r\n"⟩]⟩⟩
        [lit "respA"] [0] (lit "b")).map (fun pr => pr.1.map (·.headers)) =
      .ok [[(lit "host", lit "up.example"), (lit "connection", lit "close")]] ∧
    ¬ (lit "x-forwarded-host") ∈
        [(lit "host", lit "up.example"), (lit "connection", lit "close")].map Prod.fst := by
  exact ⟨by rfl, by decide⟩

/-- Claim C5, amended: `getChild` writes `X-Forwarded-Host` (equal to
the inbound `Host`) onto the *inbound request's* header map — used by
the non-batch reverse-proxy path — while each inner subrequest is
forwarded with its own parsed part headers (hop-by-hop headers
stripped) plus `connection: close`, with no `X-Forwarded-Host` added. -/
theorem c5_amended_xfh_on_inbound_only (req : ProxyInbound) (hostv : Str)
    (rs : List HTTPRequest) (results : List Str) (sched : List Nat) (boundary : Str)
    (hhost : dictGet req.receivedHeaders (lit "host") = some hostv)
    (hpost : lower req.method = lit "post")
    (hparse : parse_batch_request (withXFH req hostv) = .ok rs) :
    getChild req = .ok (withXFH req hostv) ∧
    (proxySession req results sched boundary).map Prod.fst = .ok (rs.map mkForward) ∧
    ∀ r ∈ rs, (mkForward r).headers = r.headers ++ [(lit "connection", lit "close")] := by
  have hg : getChild req = .ok (withXFH req hostv) := by
    simp [getChild, withXFH, hhost]
  refine ⟨hg, ?_, fun r _ => rfl⟩
  simp [proxySession, hg, hpost, hparse, Except.map]

/-- Witness for C5 (amended) at the two-part fixture. -/
theorem c5_amended_xfh_on_inbound_only_witness :
    getChild c4Inbound = .ok (withXFH c4Inbound (lit "client.example")) ∧
    (proxySession c4Inbound [lit "respA", lit "respB"] [0, 1] (lit "b")).map Prod.fst =
      .ok (c4Parsed.map mkForward) ∧
    ∀ r ∈ c4Parsed, (mkForward r).headers =
        r.headers ++ [(lit "connection", lit "close")] :=
  c5_amended_xfh_on_inbound_only c4Inbound (lit "client.example") c4Parsed
    [lit "respA", lit "respB"] [0, 1] (lit "b") (by rfl) (by decide) (by rfl)

/-! ### C2: the round-trip law -/

theorem splitCRLF_ne_nil (s : Str) : splitCRLF s ≠ [] := by
  induction s using splitCRLF.induct <;> simp_all [splitCRLF]

theorem joinCRLF_splitCRLF (s : Str) : joinCRLF (splitCRLF s) = s := by
  induction s using splitCRLF.induct with
  | case1 => rfl
  | case2 rest ih =>
    rw [splitCRLF]
    rcases hs : splitCRLF rest with _ | ⟨l, ls⟩
    · exact absurd hs (splitCRLF_ne_nil rest)
    · rw [hs] at ih
      simp only [joinCRLF]
      simpa using ih
  | case3 c rest hne hnil ih =>
    exact absurd hnil (splitCRLF_ne_nil rest)
  | case4 c rest hne l ls hs ih =>
    rw [splitCRLF.eq_3 c rest hne, hs]
    rw [hs] at ih
    cases ls with
    | nil =>
      simp only [joinCRLF] at ih ⊢
      simp [ih]
    | cons l2 ls2 =>
      simp only [joinCRLF] at ih ⊢
      simp [ih]

theorem mem_of_mem_splitCRLF {s l : Str} {c : Char}
    (hl : l ∈ splitCRLF s) (hc : c ∈ l) : c ∈ s := by
  induction s using splitCRLF.induct generalizing l with
  | case1 =>
    simp [splitCRLF] at hl
    subst hl
    simp at hc
  | case2 rest ih =>
    simp only [splitCRLF, List.mem_cons] at hl
    rcases hl with rfl | hl
    · simp at hc
    · simp [ih hl hc]
  | case3 c0 rest hne hnil ih =>
    exact absurd hnil (splitCRLF_ne_nil rest)
  | case4 c0 rest hne l2 ls hs ih =>
    rw [splitCRLF.eq_3 c0 rest hne, hs] at hl
    simp only [List.mem_cons] at hl
    rcases hl with rfl | hl
    · rcases List.mem_cons.mp hc with rfl | hc2
      · simp
      · exact List.mem_cons_of_mem _ (ih (by rw [hs]; simp) hc2)
    · exact List.mem_cons_of_mem _ (ih (by rw [hs]; simp [hl]) hc)

theorem splitCRLF_append (l rest : Str) (hl : '\r' ∉ l) :
    splitCRLF (l ++ '\r' :: '\n' :: rest) = l :: splitCRLF rest := by
  induction l with
  | nil => simp [splitCRLF]
  | cons c l ih =>
    simp only [List.mem_cons, not_or] at hl
    rw [List.cons_append,
        splitCRLF.eq_3 _ _ (fun _ hcr _ => hl.1 hcr.symm),
        ih hl.2]

theorem hexVal_hexDigit : ∀ d < 16, hexVal (hexDigit d) = some d := by decide

theorem hexDigit_ne_crlf : ∀ d < 16, hexDigit d ≠ '\r' ∧ hexDigit d ≠ '\n' := by
  decide

theorem qpDecode_cons_ne (c : Char) (rest : Str) (hc : c ≠ '=') :
    qpDecode (c :: rest) = c :: qpDecode rest := by
  conv_lhs => rw [qpDecode.eq_def]
  simp [hc]

theorem qpDecode_soft (rest : Str) :
    qpDecode ('=' :: '\r' :: '\n' :: rest) = qpDecode rest := by
  conv_lhs => rw [qpDecode.eq_def]
  simp

theorem qpDecode_hex (a b : Char) (rest : Str) (x y : Nat)
    (ha : a ≠ '\n') (hab : ¬(a = '\r' ∧ b = '\n'))
    (hx : hexVal a = some x) (hy : hexVal b = some y) :
    qpDecode ('=' :: a :: b :: rest) = Char.ofNat (16 * x + y) :: qpDecode rest := by
  conv_lhs => rw [qpDecode.eq_def]
  simp [ha, hab, hx, hy]

theorem qpNeedsQuote_false_ne (c : Char) (rest : Str) (n : Nat) (last : Bool)
    (h : ¬ qpNeedsQuote c rest n last = true) : c ≠ '=' := by
  intro hc
  subst hc
  simp [qpNeedsQuote] at h

theorem qpEncLine_decode (l : Str) (n : Nat) (last : Bool) (t : Str)
    (hl : ∀ c ∈ l, c.toNat < 256) :
    qpDecode (qpEncLine l n last ++ t) = l ++ qpDecode t := by
  induction l generalizing n with
  | nil => simp [qpEncLine]
  | cons c rest ih =>
    have hc : c.toNat < 256 := hl c (by simp)
    have hrest : ∀ d ∈ rest, d.toNat < 256 := fun d hd => hl d (by simp [hd])
    have h16 : c.toNat / 16 % 16 < 16 := Nat.mod_lt _ (by norm_num)
    have hm16 : c.toNat % 16 < 16 := Nat.mod_lt _ (by norm_num)
    have henc : ∀ t2, qpDecode ('=' :: hexDigit (c.toNat / 16 % 16) ::
        hexDigit (c.toNat % 16) :: t2) = c :: qpDecode t2 := by
      intro t2
      rw [qpDecode_hex _ _ _ _ _ (hexDigit_ne_crlf _ h16).2
          (fun hcontra => (hexDigit_ne_crlf _ h16).1 hcontra.1)
          (hexVal_hexDigit _ h16) (hexVal_hexDigit _ hm16)]
      have heq : 16 * (c.toNat / 16 % 16) + c.toNat % 16 = c.toNat := by
        have : c.toNat / 16 % 16 = c.toNat / 16 := Nat.mod_eq_of_lt (by omega)
        rw [this]
        omega
      rw [heq, Char.ofNat_toNat]
    simp only [qpEncLine]
    by_cases hq : qpNeedsQuote c rest n last
    · rw [if_pos hq]
      by_cases hlen : 75 < n + 3
      · rw [if_pos hlen]
        simp only [List.cons_append, List.append_assoc]
        rw [qpDecode_soft]
        simp only [List.cons_append, List.nil_append] at henc ⊢
        rw [henc, ih _ hrest]
      · rw [if_neg hlen]
        simp only [List.cons_append, List.append_assoc, List.nil_append]
        rw [henc, ih _ hrest]
    · rw [if_neg hq]
      have hcne : c ≠ '=' := qpNeedsQuote_false_ne c rest n last hq
      by_cases hlen : 75 < n + 1
      · rw [if_pos hlen]
        simp only [List.cons_append]
        rw [qpDecode_soft, qpDecode_cons_ne _ _ hcne, ih _ hrest]
      · rw [if_neg hlen]
        simp only [List.cons_append]
        rw [qpDecode_cons_ne _ _ hcne, ih _ hrest]

theorem qpEncLines_decode (ls : List Str)
    (h : ∀ l ∈ ls, ∀ c ∈ l, c.toNat < 256) :
    qpDecode (qpEncLines ls) = joinCRLF ls := by
  induction ls with
  | nil => rfl
  | cons l ls ih =>
    cases ls with
    | nil =>
      have hdec := qpEncLine_decode l 0 true [] (h l (by simp))
      simpa [qpEncLines, joinCRLF, qpDecode] using hdec
    | cons l2 ls2 =>
      simp only [qpEncLines, joinCRLF]
      rw [qpEncLine_decode l 0 false _ (h l (by simp))]
      rw [qpDecode_cons_ne _ _ (by decide), qpDecode_cons_ne _ _ (by decide)]
      rw [ih (fun l3 h3 => h l3 (by simp [h3]))]

theorem qp_roundtrip (s : Str) (h : ∀ c ∈ s, c.toNat < 256) :
    qpDecode (qpEncode s) = s := by
  rw [qpEncode,
      qpEncLines_decode _ (fun l hl c hcm => h c (mem_of_mem_splitCRLF hl hcm)),
      joinCRLF_splitCRLF]

theorem lstrip_cons_space (x : Str) : lstrip (' ' :: x) = lstrip x := by
  simp [lstrip, List.dropWhile, isPySpace]

theorem strip_cons_space (x : Str) : strip (' ' :: x) = strip x := by
  simp [strip, lstrip_cons_space]

theorem mem_lstrip_of_mem {l : Str} {c : Char} (hc : c ∈ l)
    (hns : isPySpace c = false) : c ∈ lstrip l := by
  have hsplit := List.takeWhile_append_dropWhile (p := isPySpace) (l := l)
  rw [← hsplit] at hc
  rcases List.mem_append.mp hc with h | h
  · exact absurd (List.mem_takeWhile_imp h) (by simp [hns])
  · exact h

theorem strip_ne_nil_of_mem {l : Str} {c : Char} (hc : c ∈ l)
    (hns : isPySpace c = false) : strip l ≠ [] := by
  intro hnil
  have h1 : c ∈ lstrip l := mem_lstrip_of_mem hc hns
  have h2 : (lstrip l).reverse.dropWhile isPySpace = [] := by
    simpa [strip, rstrip] using congrArg List.reverse hnil
  have h3 := (List.dropWhile_eq_nil_iff).mp h2 c (by simpa using h1)
  simp [hns] at h3

theorem splitWSAux_token (t : Str) (ht : ∀ c ∈ t, isPySpace c = false) :
    ∀ (rest : Str) (acc : Str),
      splitWSAux (t ++ rest) acc = splitWSAux rest (t.reverse ++ acc) := by
  induction t with
  | nil => intro rest acc; simp
  | cons c t ih =>
    intro rest acc
    have hc : isPySpace c = false := ht c (by simp)
    simp only [List.cons_append, splitWSAux, hc, Bool.false_eq_true, if_false,
      List.append_eq]
    rw [ih (fun d hd => ht d (by simp [hd])) rest]
    simp

theorem splitWSAux_space (rest : Str) (acc : Str) (ha : acc ≠ []) :
    splitWSAux (' ' :: rest) acc = acc.reverse :: splitWSAux rest [] := by
  simp [splitWSAux, isPySpace, ha]

theorem splitWSAux_end (acc : Str) (ha : acc ≠ []) :
    splitWSAux [] acc = [acc.reverse] := by
  simp [splitWSAux, ha]

theorem splitWS_three (a b c : Str) (haw : wfToken a) (hbw : wfToken b)
    (hcw : wfToken c) : splitWS (a ++ [' '] ++ b ++ [' '] ++ c) = [a, b, c] := by
  obtain ⟨ha, has⟩ := haw
  obtain ⟨hb, hbs⟩ := hbw
  obtain ⟨hc2, hcs⟩ := hcw
  rw [splitWS, show a ++ [' '] ++ b ++ [' '] ++ c =
      a ++ (' ' :: (b ++ (' ' :: c))) by simp]
  rw [splitWSAux_token a has _ [], List.append_nil,
      splitWSAux_space _ _ (by simpa using ha), List.reverse_reverse,
      splitWSAux_token b hbs _ [], List.append_nil,
      splitWSAux_space _ _ (by simpa using hb), List.reverse_reverse]
  have hlast : splitWSAux c [] = [c] := by
    have := splitWSAux_token c hcs [] []
    simp only [List.append_nil] at this
    rw [this, splitWSAux_end _ (by simpa using hc2), List.reverse_reverse]
  rw [hlast]

theorem splitAtChar1_append (sep : Char) (a b : Str) (ha : ∀ c ∈ a, c ≠ sep) :
    splitAtChar1 sep (a ++ sep :: b) = some (a, b) := by
  induction a with
  | nil => simp [splitAtChar1]
  | cons c a ih =>
    simp only [List.cons_append, splitAtChar1, List.append_eq]
    rw [if_neg (ha c (by simp)), ih (fun d hd => ha d (by simp [hd]))]
    rfl

theorem process_header_render (st : HReqState) (p : Str × Str)
    (hp : wfHeader p) : process_header st (renderHL p) = .ok (stApply st p) := by
  obtain ⟨h1, h2, h3, h4, h5, h6, h7, h8⟩ := hp
  have hsplit : splitAtChar1 ':' (renderHL p) = some (p.1, ' ' :: p.2) := by
    rw [show renderHL p = p.1 ++ ':' :: ' ' :: p.2 by simp [renderHL, lit],
        splitAtChar1_append _ _ _ (fun c hcm => (h2 c hcm).1)]
  simp only [process_header, hsplit, h5, strip_cons_space, h7, stApply]
  by_cases hcl : p.1 = lit "content-length"
  · obtain ⟨n, hn⟩ := Option.isSome_iff_exists.mp (h8 hcl)
    rw [if_pos hcl, if_pos hcl, hn]
  · rw [if_neg hcl, if_neg hcl]
    split
    · rfl
    · split <;> rfl

theorem renderHL_ne_nil (p : Str × Str) (h1 : p.1 ≠ []) : renderHL p ≠ [] := by
  cases hp1 : p.1 with
  | nil => exact absurd hp1 h1
  | cons c0 cs => simp [renderHL, hp1]

set_option maxHeartbeats 1600000 in
theorem reqHeaderLoop_step_cons (l : Str) (ls : List Str) (p : Str × Str)
    (hdr : Str) (st st1 : HReqState) (hp : wfHeader p)
    (hflush : (if hdr ≠ [] then process_header st hdr else Except.ok st) =
      .ok st1) :
    reqHeaderLoop (l :: ls) (renderHL p) hdr st =
      reqHeaderLoop ls l (renderHL p) st1 := by
  obtain ⟨h1, h2, h3, h4, h5, h6, h7, h8⟩ := hp
  have hstrip : strip (renderHL p) ≠ [] :=
    strip_ne_nil_of_mem (show ':' ∈ renderHL p by simp [renderHL, lit])
      (by decide)
  cases hp1 : p.1 with
  | nil => exact absurd hp1 h1
  | cons c0 cs =>
    have h3a : decide (c0 = ' ') = false := by
      simp only [decide_eq_false_iff_not]
      exact fun h => h3 (by rw [hp1, h]; rfl)
    have h4a : decide (c0 = '\t') = false := by
      simp only [decide_eq_false_iff_not]
      exact fun h => h4 (by rw [hp1, h]; rfl)
    have hrender : renderHL p = c0 :: (cs ++ lit ": " ++ p.2) := by
      simp [renderHL, hp1]
    rw [hrender, reqHeaderLoop.eq_1]
    rw [if_pos (hrender ▸ hstrip)]
    simp only [h3a, h4a, Bool.or_self, Bool.false_eq_true, if_false]
    rw [hflush]

set_option maxHeartbeats 1600000 in
theorem reqHeaderLoop_step_nil (p : Str × Str) (hdr : Str)
    (st st1 : HReqState) (hp : wfHeader p)
    (hflush : (if hdr ≠ [] then process_header st hdr else Except.ok st) =
      .ok st1) :
    reqHeaderLoop [] (renderHL p) hdr st = .ok (st1, renderHL p, []) := by
  obtain ⟨h1, h2, h3, h4, h5, h6, h7, h8⟩ := hp
  have hstrip : strip (renderHL p) ≠ [] :=
    strip_ne_nil_of_mem (show ':' ∈ renderHL p by simp [renderHL, lit])
      (by decide)
  cases hp1 : p.1 with
  | nil => exact absurd hp1 h1
  | cons c0 cs =>
    have h3a : decide (c0 = ' ') = false := by
      simp only [decide_eq_false_iff_not]
      exact fun h => h3 (by rw [hp1, h]; rfl)
    have h4a : decide (c0 = '\t') = false := by
      simp only [decide_eq_false_iff_not]
      exact fun h => h4 (by rw [hp1, h]; rfl)
    have hrender : renderHL p = c0 :: (cs ++ lit ": " ++ p.2) := by
      simp [renderHL, hp1]
    rw [hrender, reqHeaderLoop.eq_1]
    rw [if_pos (hrender ▸ hstrip)]
    simp only [h3a, h4a, Bool.or_self, Bool.false_eq_true, if_false]
    rw [hflush]

theorem reqHeaderLoop_blank (lines : List Str) (hdr : Str) (st : HReqState) :
    reqHeaderLoop lines [] hdr st = .ok (st, hdr, lines) := by
  rw [reqHeaderLoop.eq_2]
  rw [if_neg (by simp [strip, lstrip, rstrip])]

theorem reqHeaderLoop_render (hs : List (Str × Str)) :
    ∀ (prev cur : Str × Str) (t : Str) (st : HReqState),
      wfHeader prev → wfHeader cur → (∀ p ∈ hs, wfHeader p) →
      reqHeaderLoop (hs.map renderHL ++ [] :: splitCRLF t) (renderHL cur)
          (renderHL prev) st =
        .ok (foldHeaders st (prev :: cur :: hs).dropLast,
             renderHL ((cur :: hs).getLast (List.cons_ne_nil _ _)),
             splitCRLF t) := by
  induction hs with
  | nil =>
    intro prev cur t st hprev hcur _
    have hne : renderHL prev ≠ [] := renderHL_ne_nil prev hprev.1
    simp only [List.map_nil, List.nil_append]
    rw [reqHeaderLoop_step_cons _ _ cur _ _ _ hcur
      (by rw [if_pos hne, process_header_render st prev hprev])]
    rw [reqHeaderLoop_blank]
    simp [foldHeaders]
  | cons h hs2 ih =>
    intro prev cur t st hprev hcur hall
    have hne : renderHL prev ≠ [] := renderHL_ne_nil prev hprev.1
    simp only [List.map_cons, List.cons_append]
    rw [reqHeaderLoop_step_cons _ _ cur _ _ _ hcur
      (by rw [if_pos hne, process_header_render st prev hprev])]
    rw [ih cur h t (stApply st prev) hcur (hall h (by simp))
      (fun q hq => hall q (by simp [hq]))]
    simp only [List.dropLast_cons₂, List.getLast_cons]
    rfl

theorem splitCRLF_headerBlock (hs : List (Str × Str)) (t : Str)
    (h : ∀ p ∈ hs, '\r' ∉ renderHL p) :
    splitCRLF ((hs.map (fun p => renderHL p ++ lit "\r\n")).flatten ++ t) =
      hs.map renderHL ++ splitCRLF t := by
  induction hs with
  | nil => simp
  | cons p hs ih =>
    simp only [List.map_cons, List.flatten_cons, List.append_assoc]
    have hlit : lit "\r\n" ++ ((hs.map
        (fun p => renderHL p ++ lit "\r\n")).flatten ++ t) =
        '\r' :: '\n' :: ((hs.map
          (fun p => renderHL p ++ lit "\r\n")).flatten ++ t) := rfl
    rw [hlit, splitCRLF_append _ _ (h p (by simp)),
      ih (fun q hq => h q (by simp [hq]))]
    simp

theorem wfHeader_cr_free {p : Str × Str} (hp : wfHeader p) :
    '\r' ∉ renderHL p := by
  obtain ⟨h1, h2, h3, h4, h5, h6, h7, h8⟩ := hp
  intro hmem
  rw [renderHL] at hmem
  rcases List.mem_append.mp hmem with h | h
  · rcases List.mem_append.mp h with h | h
    · exact (h2 _ h).2.1 rfl
    · simp [lit] at h
  · exact (h6 _ h).1 rfl

theorem reqLine_cr_free (w : WireRequest) (hw : WfWire w) :
    '\r' ∉ reqLineOf w := by
  obtain ⟨⟨_, hc⟩, ⟨_, hu⟩, ⟨_, hv⟩, _⟩ := hw
  intro hmem
  rw [reqLineOf] at hmem
  rcases List.mem_append.mp hmem with h | h
  · rcases List.mem_append.mp h with h | h
    · rcases List.mem_append.mp h with h | h
      · rcases List.mem_append.mp h with h | h
        · exact absurd (hc _ h) (by decide)
        · simp at h
      · exact absurd (hu _ h) (by decide)
    · simp at h
  · exact absurd (hv _ h) (by decide)

theorem splitCRLF_renderWire (w : WireRequest) (hw : WfWire w) :
    splitCRLF (renderWire w) =
      reqLineOf w :: (w.headers.map renderHL ++ [] :: splitCRLF w.body) := by
  have hhl : ∀ p ∈ w.headers, '\r' ∉ renderHL p :=
    fun p hp => wfHeader_cr_free (hw.2.2.2.1 p hp)
  rw [show renderWire w = reqLineOf w ++ '\r' :: '\n' ::
      ((w.headers.map (fun p => renderHL p ++ lit "\r\n")).flatten ++
        '\r' :: '\n' :: w.body) by simp [renderWire, lit]]
  rw [splitCRLF_append _ _ (reqLine_cr_free w hw)]
  rw [splitCRLF_headerBlock _ _ hhl]
  rw [splitCRLF.eq_2]

theorem foldHeaders_flush (l : List (Str × Str)) (hne : l ≠ [])
    (st : HReqState) :
    stApply (foldHeaders st l.dropLast) (l.getLast hne) = foldHeaders st l := by
  conv_rhs => rw [← List.dropLast_append_getLast hne]
  rw [foldHeaders, foldHeaders, List.foldl_append]
  rfl

theorem parseHTTPRequest_render (w : WireRequest) (rid : Option Str)
    (hw : WfWire w) :
    parseHTTPRequest (renderWire w) [] rid = .ok (wireRecordOf w rid) := by
  have hsplit := splitCRLF_renderWire w hw
  obtain ⟨hcw, huw, hvw, hheads, hquirk, huri, hbytes⟩ := hw
  have hws : splitWS (reqLineOf w) = [w.command, w.uri, w.version] :=
    splitWS_three _ _ _ hcw huw hvw
  obtain ⟨cmd, uri, ver, heads, body⟩ := w
  simp only at hsplit hws hheads hquirk huri ⊢
  simp only [parseHTTPRequest, hsplit, hws, huri, wireRecordOf]
  cases heads with
  | nil =>
    have hpost : cmd ≠ lit "POST" := by
      rcases hquirk with h | h
      · exact absurd rfl h
      · exact h
    simp only [List.map_nil, List.nil_append, hpost, decide_eq_false,
      Bool.and_false, Bool.false_eq_true, if_false, reqHeaderLoop_blank,
      foldHeaders, List.foldl_nil, joinCRLF_splitCRLF]
    simp [reqHeaderLoop_blank, joinCRLF_splitCRLF]
  | cons h1 hs1 =>
    have hwf1 : wfHeader h1 := hheads h1 (by simp)
    have hne1 : renderHL h1 ≠ [] := renderHL_ne_nil h1 hwf1.1
    simp only [List.map_cons, List.cons_append, hne1, decide_eq_false,
      decide_False, Bool.false_and, Bool.false_eq_true, if_false]
    cases hs1 with
    | nil =>
      simp only [List.map_nil, List.nil_append]
      rw [reqHeaderLoop_step_cons [] (splitCRLF body) h1 []
        ⟨none, none, [], []⟩ ⟨none, none, [], []⟩ hwf1 (by simp)]
      simp only [reqHeaderLoop_blank, ne_eq, hne1, not_false_iff, if_true,
        process_header_render _ _ hwf1, foldHeaders, List.foldl_cons,
        List.foldl_nil, joinCRLF_splitCRLF]
    | cons h2 hs2 =>
      have hwf2 : wfHeader h2 := hheads h2 (by simp)
      have hall2 : ∀ q ∈ hs2, wfHeader q := fun q hq => hheads q (by simp [hq])
      simp only [List.map_cons, List.cons_append]
      rw [reqHeaderLoop_step_cons (renderHL h2)
        (List.map renderHL hs2 ++ [] :: splitCRLF body) h1 []
        ⟨none, none, [], []⟩ ⟨none, none, [], []⟩ hwf1 (by simp)]
      rw [reqHeaderLoop_render hs2 h1 h2 body _ hwf1 hwf2 hall2]
      have hwfl : wfHeader ((h2 :: hs2).getLast (List.cons_ne_nil _ _)) :=
        hheads _ (List.mem_cons_of_mem _ (List.getLast_mem _))
      have hnel : renderHL ((h2 :: hs2).getLast (List.cons_ne_nil _ _)) ≠ [] :=
        renderHL_ne_nil _ hwfl.1
      have key : stApply (foldHeaders
            ⟨none, none, [], []⟩ (h1 :: h2 :: hs2).dropLast)
            ((h2 :: hs2).getLast (List.cons_ne_nil _ _)) =
          foldHeaders ⟨none, none, [], []⟩ (h1 :: h2 :: hs2) := by
        rw [show (h2 :: hs2).getLast (List.cons_ne_nil _ _) =
          (h1 :: h2 :: hs2).getLast (List.cons_ne_nil _ _) from
          (List.getLast_cons (List.cons_ne_nil _ _)).symm]
        exact foldHeaders_flush _ (by simp) _
      simp only [ne_eq, hnel, not_false_iff, if_true,
        process_header_render _ _ hwfl, key, joinCRLF_splitCRLF]

/-- Claim C2, counterexample: the round-trip re-rendering of an
absolute-URI GET with a body differs from the original beyond
header-name casing and CRLF canonicalization — the request line is
rewritten to the path `/moose` and the blank header/body separator
line is dropped (`__str__` does not reinsert it). -/
theorem c2_counterexample_roundtrip :
    (decodeRequests (encodeRequests
        [lit "GET http://example.com/moose HTTP/1.1\r\nhost: example.com\r\n\r\nBODY"])).map
        (List.map renderHTTPRequest) =
      .ok [lit "GET /moose HTTP/1.1\r\nhost: example.com\r\nBODY"] ∧
    ¬ ReqEquiv (lit "GET /moose HTTP/1.1\r\nhost: example.com\r\nBODY")
      (lit "GET http://example.com/moose HTTP/1.1\r\nhost: example.com\r\n\r\nBODY") := by
  refine ⟨by rfl, ?_⟩
  unfold ReqEquiv
  decide

theorem walkParts_wires (ps : List (WireRequest × Str)) :
    ∀ (acc : HTTPParserOut), (∀ q ∈ ps, WfWire q.1) →
    walkParts (ps.map (fun q => HTTPRequestMessage (renderWire q.1) q.2)) acc =
      .ok ⟨acc.requests ++ ps.map (fun q => wireRecordOf q.1 (some q.2)),
           acc.responses⟩ := by
  induction ps with
  | nil => intro acc _; simp [walkParts]
  | cons q ps ih =>
    intro acc hwf
    have hq := hwf q (by simp)
    have hpay : parse_subrequest (HTTPRequestMessage (renderWire q.1) q.2) =
        renderWire q.1 := by
      simp only [parse_subrequest, HTTPRequestMessage]
      rw [if_pos (by decide)]
      exact qp_roundtrip _ hq.2.2.2.2.2.2
    simp only [HTTPRequestMessage] at hpay ih
    have hmt : ¬ (lit "application" : Str) = lit "multipart" := by decide
    simp only [List.map_cons, walkParts, HTTPRequestMessage, hmt, if_false,
      eq_self_iff_true, if_true, hpay,
      parseHTTPRequest_render q.1 (some q.2) hq]
    rw [ih _ (fun r hr => hwf r (by simp [hr]))]
    simp

/-- Claim C2 (amended): the round-trip law holds in structured form. For
every list of well-formed wire requests (origin-form URI, sane tokens and
headers, byte-valued characters, the POST blank-line quirk avoided),
running `HTTPParser` on the `MultipartHTTPMessage` encoding of their
rendered byte strings recovers every request completely — method, request
URI, HTTP version, the full header list, the body, and the positional
`Multipart-Request-ID` `i+1` — in order. The byte-level form of the claim
is false (see the counterexample): `HTTPRequest.__str__` rewrites the
request line to `self.path` and drops the blank header/body separator,
which is beyond header-case and CRLF normalization. -/
theorem c2_amended_structured_roundtrip (R : List WireRequest)
    (hR : ∀ w ∈ R, WfWire w) :
    decodeRequests (encodeRequests (R.map renderWire)) =
      .ok (R.enum.map (fun p => wireRecordOf p.2 (some (pyStrNat (p.1 + 1))))) := by
  rw [decodeRequests, runHTTPParser, encodeRequests, List.enum_map]
  have hmaps : (R.enum.map (Prod.map id renderWire)).map
      (fun p => HTTPRequestMessage p.2 (pyStrNat (p.1 + 1))) =
      (R.enum.map (fun p => (p.2, pyStrNat (p.1 + 1)))).map
        (fun q => HTTPRequestMessage (renderWire q.1) q.2) := by
    simp [List.map_map, Function.comp, Prod.map]
  rw [hmaps]
  have hwfall : ∀ q ∈ R.enum.map (fun p => (p.2, pyStrNat (p.1 + 1))),
      WfWire q.1 := by
    intro q hq
    simp only [List.mem_map] at hq
    obtain ⟨p, hp, rfl⟩ := hq
    have hget := List.mem_enum_iff_getElem?.mp hp
    obtain ⟨hlt, heq⟩ := List.getElem?_eq_some.mp hget
    exact hR p.2 (heq ▸ List.getElem_mem hlt)
  rw [walkParts_wires _ _ hwfall]
  simp [Except.map, List.map_map, Function.comp]

/-- Witness for the amended C2: one well-formed GET with a host header
and a body round-trips to its structured record with id "1". -/
theorem c2_amended_structured_roundtrip_witness :
    (∀ w ∈ [(⟨lit "GET", lit "/moose", lit "HTTP/1.1",
        [(lit "host", lit "example.com")], lit "BODY"⟩ : WireRequest)],
      WfWire w) ∧
    decodeRequests (encodeRequests
        ([(⟨lit "GET", lit "/moose", lit "HTTP/1.1",
          [(lit "host", lit "example.com")], lit "BODY"⟩ : WireRequest)].map
          renderWire)) =
      .ok ([(⟨lit "GET", lit "/moose", lit "HTTP/1.1",
          [(lit "host", lit "example.com")], lit "BODY"⟩ : WireRequest)].enum.map
        (fun p => wireRecordOf p.2 (some (pyStrNat (p.1 + 1))))) := by
  have hwf : ∀ w ∈ [(⟨lit "GET", lit "/moose", lit "HTTP/1.1",
      [(lit "host", lit "example.com")], lit "BODY"⟩ : WireRequest)],
      WfWire w := by
    intro w hw
    rw [List.mem_singleton] at hw
    subst hw
    unfold WfWire wfToken wfHeader
    decide
  exact ⟨hwf, c2_amended_structured_roundtrip _ hwf⟩

/-- Claim C3: when the outer response status is anything but 207,
`handle_response` raises `NonBatchResponseError` carrying that status
and reason before any dispatch, so `complete` fails with it, no
callback is invoked, and the batch is discarded. -/
theorem c3_non_batch_response (agent : Agent) (boundary : Str)
    (st : BatchClientState) (b : CBatchRequest) (ep : Str)
    (hdrs : List (Str × Str)) (content : MultipartMsg) (w : Bool)
    (resp : BatchNetResponse)
    (hb : st.batchrequest = some b) (hep : st.endpoint = some ep)
    (hc : construct agent boundary b = .ok ⟨some (hdrs, content), w⟩)
    (hs : resp.status ≠ 207) :
    complete_batch agent (fun _ _ => resp) boundary st =
      ({ st with batchrequest := none },
       ⟨[⟨urljoin ep (lit "/batch-processor"), lit "POST", hdrs, content⟩], [], w,
        .error (.nonBatchResponse resp.status resp.reason)⟩) := by
  simp only [complete_batch, hb, hep, process, hc, handle_response, if_pos hs]

/-- Witness for C3: a 500 response to a one-subrequest batch. -/
theorem c3_non_batch_response_witness :
    complete_batch plainAgent
        (fun _ _ => ⟨500, lit "Internal Server Error", false, []⟩) (lit "bnd")
        ⟨some (lit "http://e.com/"), some ⟨[liveReq "http://example.com/a"]⟩⟩ =
      (⟨some (lit "http://e.com/"), none⟩,
       ⟨[⟨urljoin (lit "http://e.com/") (lit "/batch-processor"), lit "POST",
          [(lit "MIME-Version", lit "1.0"),
           (lit "Content-Type", batchContentType (lit "bnd")),
           (lit "accept-encoding", lit "gzip;q=1.0, identity; q=0.5, *;q=0")],
          ⟨[HTTPRequestMessage (requestText plainAgent (liveReq "http://example.com/a"))
              (lit "1")]⟩⟩], [], false,
        .error (.nonBatchResponse 500 (lit "Internal Server Error"))⟩) :=
  c3_non_batch_response plainAgent (lit "bnd") _ ⟨[liveReq "http://example.com/a"]⟩ _ _ _
    false ⟨500, lit "Internal Server Error", false, []⟩ rfl rfl (by decide) (by decide)

end BatchHTTP
